import Mathlib

/-!
Verification development for the workflow application service of the
coze-local repository (backend/application/workflow/workflow.go).

The Go source is shallowly embedded: Go structs become Lean structures or
inductives, pointer-typed optional fields become `Option`, `int64` becomes
`Int`, unsigned counters become `Nat`, Go maps used by the code become
association lists (with deterministic iteration order standing in for Go's
unspecified map order), and the JSON serialization of nested result arrays
(`sonic.MarshalString`) is modelled by keeping the structured value itself,
since serialization preserves exactly the information the properties speak
about (in particular the number of entries of a batch array).
-/

namespace CozeWf

/-- Node type identifiers (entity.NodeType).  Only the constants the
application layer inspects are distinguished; all others are `other`. -/
inductive NodeType where
  | start
  | exit
  | batch
  | llm
  | subWorkflow
  | other (k : Nat)
deriving DecidableEq

/-- Node execution status (entity.NodeExecuteStatus / workflow.NodeExeStatus;
the Go code converts between the two enums by numeric cast, so one Lean type
models both). -/
inductive NodeStatus where
  | running
  | success
  | failed
  | skipped
deriving DecidableEq

/-- Workflow execution status (entity.WorkflowExecuteStatus /
workflow.WorkflowExeStatus, numerically cast in the Go code). -/
inductive WorkflowStatus where
  | running
  | success
  | failed
  | cancelled
  | interrupted
deriving DecidableEq

/-- Token usage counters (entity.TokenUsage). -/
structure TokenInfo where
  inputTokens : Nat
  outputTokens : Nat
deriving DecidableEq

/-- Node-type specific extra payload (entity.NodeExtra).  The application
layer only ever writes the `SubExecuteID` field and otherwise passes the
value through opaquely; the remaining payload is modelled as one opaque
string. -/
structure NodeExtra where
  subExecuteID : Int
  payload : String
deriving DecidableEq

/-- The zero value of entity.NodeExtra. -/
def defaultNodeExtra : NodeExtra := { subExecuteID := 0, payload := "" }

/-- Token cost rendering (workflow.TokenAndCost). -/
structure TokenAndCost where
  inputTokens : String
  outputTokens : String
  totalTokens : String
deriving DecidableEq

/-- The decimal digit character for a digit value, as produced by Go's
decimal formatting. -/
def natDigitChar (d : Nat) : Char :=
  match d with
  | 0 => '0'
  | 1 => '1'
  | 2 => '2'
  | 3 => '3'
  | 4 => '4'
  | 5 => '5'
  | 6 => '6'
  | 7 => '7'
  | 8 => '8'
  | _ => '9'

/-- Decimal digits of a natural number, most significant first; empty for 0.
Models the digit production of Go's strconv/fmt integer formatting. -/
def natToDigits (n : Nat) : List Char :=
  if h : n = 0 then []
  else natToDigits (n / 10) ++ [natDigitChar (n % 10)]
decreasing_by exact Nat.div_lt_self (Nat.pos_of_ne_zero h) (by decide)

/-- Go's decimal rendering of a natural number (strconv.Itoa for
non-negative values, fmt %d). -/
def goItoaNat (n : Nat) : String :=
  if n = 0 then "0" else String.mk (natToDigits n)

/-- Go's decimal rendering of an int64 (strconv.FormatInt(v, 10),
fmt %d). -/
def goItoaInt (v : Int) : String :=
  if v < 0 then "-" ++ goItoaNat v.natAbs else goItoaNat v.natAbs

/-- "%d Tokens" rendering used for token counts. -/
def formatTokens (n : Nat) : String := goItoaNat n ++ " Tokens"

/-- Left pad of the millisecond remainder to three digits. -/
def pad3 (r : Nat) : String :=
  if r < 10 then "00" ++ goItoaNat r
  else if r < 100 then "0" ++ goItoaNat r
  else goItoaNat r

/-- "%.3fs" rendering of a duration held in milliseconds
(fmt.Sprintf("%.3fs", d.Seconds()); for millisecond-granularity durations
the floating point rendering is the exact decimal). -/
def formatDurationMs (ms : Nat) : String :=
  goItoaNat (ms / 1000) ++ "." ++ pad3 (ms % 1000) ++ "s"

/-- workflow.TokenAndCost built from a token usage record, as done both in
GetProcess and in convertNodeExecution. -/
def tokenAndCostOf (ti : TokenInfo) : TokenAndCost :=
  { inputTokens := formatTokens ti.inputTokens
    outputTokens := formatTokens ti.outputTokens
    totalTokens := formatTokens (ti.inputTokens + ti.outputTokens) }

/-- Modelled from the spec: the node registry's display key for a node type
(entity.NodeMetaByNodeType(t).GetDisplayKey(); the registry itself is not
part of the embedded source).  The only values the embedded code compares
against are the Start and End display keys, which this model keeps
consistent with `nodeTemplateTypeStartStr` and `nodeTemplateTypeEndStr`. -/
def displayKey (t : NodeType) : String :=
  match t with
  | .start => "Start"
  | .exit => "End"
  | .batch => "Batch"
  | .llm => "LLM"
  | .subWorkflow => "SubWorkflow"
  | .other k => "Node" ++ goItoaNat k

/-- workflow.NodeTemplateType_Start.String(). -/
def nodeTemplateTypeStartStr : String := "Start"

/-- workflow.NodeTemplateType_End.String(). -/
def nodeTemplateTypeEndStr : String := "End"

/-- string(vo.LevelError); modelled constant, its concrete text is not in
the embedded source. -/
def levelError : String := "Error"

/-- Modelled from the spec: entity.ExitNodeKey, the fixed node key of the
exit node (constant value not in the embedded source). -/
def exitNodeKey : String := "900001"

/-- Modelled from the spec: vo.IsGeneratedNodeForBatchMode, which
recognises the per-batch generated inner node by its identifier being
derived from the parent (batch-control) node's identifier.  The derivation
scheme is not in the embedded source; the model uses a fixed suffix. -/
def isGeneratedNodeForBatchMode (nodeID parentID : String) : Bool :=
  nodeID = parentID ++ "_inner"

/-- Association list lookup (first match), modelling a Go map read. -/
def alLookup {α : Type} (m : List (String × α)) (k : String) : Option α :=
  match m with
  | [] => none
  | p :: rest => if p.1 = k then some p.2 else alLookup rest k

/-- Association list deletion, modelling Go's delete. -/
def alRemove {α : Type} (m : List (String × α)) (k : String) : List (String × α) :=
  match m with
  | [] => []
  | p :: rest => if p.1 = k then alRemove rest k else p :: alRemove rest k

/-- Association list store, modelling a Go map write (overwrite
semantics). -/
def alStore {α : Type} (m : List (String × α)) (k : String) (v : α) : List (String × α) :=
  alRemove m k ++ [(k, v)]

/-- entity.NodeExecution.  Recursive through `indexedExecutions` (the
per-iteration snapshots attached to the generated batch inner node; entries
may be nil, hence `Option`).  `subWorkflowExecutionID` models the
`SubWorkflowExecution` reference (only its ID is read by the embedded
code).  Durations are in milliseconds. -/
inductive NodeExecution where
  | mk
    (nodeID : String)
    (executeID : Int)
    (nodeName : String)
    (nodeType : NodeType)
    (status : NodeStatus)
    (durationMs : Nat)
    (input : Option String)
    (output : Option String)
    (rawOutput : Option String)
    (errorInfo : Option String)
    (errorLevel : Option String)
    (tokenInfo : Option TokenInfo)
    (parentNodeID : Option String)
    (index : Nat)
    (items : Option String)
    (indexedExecutions : List (Option NodeExecution))
    (subWorkflowExecutionID : Option Int)
    (extra : Option NodeExtra)

def NodeExecution.nodeID : NodeExecution → String
  | .mk a _ _ _ _ _ _ _ _ _ _ _ _ _ _ _ _ _ => a

def NodeExecution.executeID : NodeExecution → Int
  | .mk _ a _ _ _ _ _ _ _ _ _ _ _ _ _ _ _ _ => a

def NodeExecution.nodeName : NodeExecution → String
  | .mk _ _ a _ _ _ _ _ _ _ _ _ _ _ _ _ _ _ => a

def NodeExecution.nodeType : NodeExecution → NodeType
  | .mk _ _ _ a _ _ _ _ _ _ _ _ _ _ _ _ _ _ => a

def NodeExecution.status : NodeExecution → NodeStatus
  | .mk _ _ _ _ a _ _ _ _ _ _ _ _ _ _ _ _ _ => a

def NodeExecution.durationMs : NodeExecution → Nat
  | .mk _ _ _ _ _ a _ _ _ _ _ _ _ _ _ _ _ _ => a

def NodeExecution.input : NodeExecution → Option String
  | .mk _ _ _ _ _ _ a _ _ _ _ _ _ _ _ _ _ _ => a

def NodeExecution.output : NodeExecution → Option String
  | .mk _ _ _ _ _ _ _ a _ _ _ _ _ _ _ _ _ _ => a

def NodeExecution.rawOutput : NodeExecution → Option String
  | .mk _ _ _ _ _ _ _ _ a _ _ _ _ _ _ _ _ _ => a

def NodeExecution.errorInfo : NodeExecution → Option String
  | .mk _ _ _ _ _ _ _ _ _ a _ _ _ _ _ _ _ _ => a

def NodeExecution.errorLevel : NodeExecution → Option String
  | .mk _ _ _ _ _ _ _ _ _ _ a _ _ _ _ _ _ _ => a

def NodeExecution.tokenInfo : NodeExecution → Option TokenInfo
  | .mk _ _ _ _ _ _ _ _ _ _ _ a _ _ _ _ _ _ => a

def NodeExecution.parentNodeID : NodeExecution → Option String
  | .mk _ _ _ _ _ _ _ _ _ _ _ _ a _ _ _ _ _ => a

def NodeExecution.index : NodeExecution → Nat
  | .mk _ _ _ _ _ _ _ _ _ _ _ _ _ a _ _ _ _ => a

def NodeExecution.items : NodeExecution → Option String
  | .mk _ _ _ _ _ _ _ _ _ _ _ _ _ _ a _ _ _ => a

def NodeExecution.indexedExecutions : NodeExecution → List (Option NodeExecution)
  | .mk _ _ _ _ _ _ _ _ _ _ _ _ _ _ _ a _ _ => a

def NodeExecution.subWorkflowExecutionID : NodeExecution → Option Int
  | .mk _ _ _ _ _ _ _ _ _ _ _ _ _ _ _ _ a _ => a

def NodeExecution.extra : NodeExecution → Option NodeExtra
  | .mk _ _ _ _ _ _ _ _ _ _ _ _ _ _ _ _ _ a => a

/-- workflow.NodeResult.  Recursive through `batch`: the Go code stores
`sonic.MarshalString` of the per-iteration `[]*NodeResult` there; the model
keeps the structured array itself (`none` entries are the serialized
`null`s).  A `none` in an `Option String` field models the Go zero/nil
distinction where the Go field is a pointer; plain Go strings are plain
`String`s. -/
inductive NodeResult where
  | mk
    (nodeId : String)
    (nodeName : String)
    (nodeType : String)
    (nodeStatus : NodeStatus)
    (errorInfo : String)
    (input : String)
    (output : String)
    (nodeExeCost : String)
    (tokenAndCost : Option TokenAndCost)
    (rawOutput : Option String)
    (errorLevel : String)
    (index : Option Nat)
    (items : Option String)
    (isBatch : Option Bool)
    (batch : Option (List (Option NodeResult)))
    (extra : Option NodeExtra)
    (executeId : Option String)
    (subExecuteId : Option String)
    (needAsync : Option Bool)

def NodeResult.nodeId : NodeResult → String
  | .mk a _ _ _ _ _ _ _ _ _ _ _ _ _ _ _ _ _ _ => a

def NodeResult.nodeName : NodeResult → String
  | .mk _ a _ _ _ _ _ _ _ _ _ _ _ _ _ _ _ _ _ => a

def NodeResult.nodeType : NodeResult → String
  | .mk _ _ a _ _ _ _ _ _ _ _ _ _ _ _ _ _ _ _ => a

def NodeResult.nodeStatus : NodeResult → NodeStatus
  | .mk _ _ _ a _ _ _ _ _ _ _ _ _ _ _ _ _ _ _ => a

def NodeResult.errorInfo : NodeResult → String
  | .mk _ _ _ _ a _ _ _ _ _ _ _ _ _ _ _ _ _ _ => a

def NodeResult.input : NodeResult → String
  | .mk _ _ _ _ _ a _ _ _ _ _ _ _ _ _ _ _ _ _ => a

def NodeResult.output : NodeResult → String
  | .mk _ _ _ _ _ _ a _ _ _ _ _ _ _ _ _ _ _ _ => a

def NodeResult.nodeExeCost : NodeResult → String
  | .mk _ _ _ _ _ _ _ a _ _ _ _ _ _ _ _ _ _ _ => a

def NodeResult.tokenAndCost : NodeResult → Option TokenAndCost
  | .mk _ _ _ _ _ _ _ _ a _ _ _ _ _ _ _ _ _ _ => a

def NodeResult.rawOutput : NodeResult → Option String
  | .mk _ _ _ _ _ _ _ _ _ a _ _ _ _ _ _ _ _ _ => a

def NodeResult.errorLevel : NodeResult → String
  | .mk _ _ _ _ _ _ _ _ _ _ a _ _ _ _ _ _ _ _ => a

def NodeResult.index : NodeResult → Option Nat
  | .mk _ _ _ _ _ _ _ _ _ _ _ a _ _ _ _ _ _ _ => a

def NodeResult.items : NodeResult → Option String
  | .mk _ _ _ _ _ _ _ _ _ _ _ _ a _ _ _ _ _ _ => a

def NodeResult.isBatch : NodeResult → Option Bool
  | .mk _ _ _ _ _ _ _ _ _ _ _ _ _ a _ _ _ _ _ => a

def NodeResult.batch : NodeResult → Option (List (Option NodeResult))
  | .mk _ _ _ _ _ _ _ _ _ _ _ _ _ _ a _ _ _ _ => a

def NodeResult.extra : NodeResult → Option NodeExtra
  | .mk _ _ _ _ _ _ _ _ _ _ _ _ _ _ _ a _ _ _ => a

def NodeResult.executeId : NodeResult → Option String
  | .mk _ _ _ _ _ _ _ _ _ _ _ _ _ _ _ _ a _ _ => a

def NodeResult.subExecuteId : NodeResult → Option String
  | .mk _ _ _ _ _ _ _ _ _ _ _ _ _ _ _ _ _ a _ => a

def NodeResult.needAsync : NodeResult → Option Bool
  | .mk _ _ _ _ _ _ _ _ _ _ _ _ _ _ _ _ _ _ a => a

/-- The NodeExtra value after the SubWorkflowExecution fixup of
convertNodeExecution (`nodeExe.Extra.SubExecuteID = nodeExe.SubWorkflowExecution.ID`,
allocating a fresh NodeExtra when nil). -/
def setSubExecuteID (e : NodeExtra) (sid : Int) : NodeExtra :=
  { e with subExecuteID := sid }

mutual

/-- convertNodeExecution (workflow.go:1282-1348): projects an
entity.NodeExecution into a workflow.NodeResult.  The only error path of
the Go function is JSON marshalling of the batch array / extra payload,
which cannot fail on the structured model, so the embedding is total. -/
def convertNodeExecution : NodeExecution → NodeResult
  | .mk nodeID executeID nodeName nodeType status durationMs input output rawOutput
      errorInfo errorLevel tokenInfo parentNodeID index items indexed subWfID extra =>
    NodeResult.mk
      nodeID
      nodeName
      (displayKey nodeType)
      status
      (errorInfo.getD "")
      (input.getD "")
      (output.getD "")
      (formatDurationMs durationMs)
      (tokenInfo.map tokenAndCostOf)
      rawOutput
      (errorLevel.getD "")
      (if parentNodeID.isSome then some index else none)
      (if parentNodeID.isSome then items else none)
      (if indexed.isEmpty then none else some true)
      (if indexed.isEmpty then none else some (convertIndexedExecutions indexed))
      (match subWfID with
        | some sid => some (setSubExecuteID (extra.getD defaultNodeExtra) sid)
        | none => extra)
      (subWfID.map (fun _ => goItoaInt executeID))
      (subWfID.map (fun sid => goItoaInt sid))
      none

/-- The subResults loop of convertNodeExecution: nil iteration slots stay
nil (serialized as null), present ones are converted recursively. -/
def convertIndexedExecutions : List (Option NodeExecution) → List (Option NodeResult)
  | [] => []
  | none :: rest => none :: convertIndexedExecutions rest
  | some ne :: rest => some (convertNodeExecution ne) :: convertIndexedExecutions rest

end

/-- mergeBatchModeNodes (workflow.go:1350-1372): combines the two report
halves of a batch-mode node into one NodeResult.  Fields not listed in the
Go struct literal are zero-valued (Index, Items nil). -/
def mergeBatchModeNodes (parent inner : NodeResult) : NodeResult :=
  NodeResult.mk
    parent.nodeId
    parent.nodeName
    inner.nodeType
    parent.nodeStatus
    parent.errorInfo
    parent.input
    parent.output
    parent.nodeExeCost
    parent.tokenAndCost
    parent.rawOutput
    parent.errorLevel
    none
    none
    inner.isBatch
    inner.batch
    inner.extra
    parent.executeId
    parent.subExecuteId
    parent.needAsync

/-- Interrupt event fired by a tool call inside an LLM node
(entity.ToolInterruptEvent, the fields read by the application layer). -/
structure ToolInterruptEvent where
  nodeKey : String
  nodeType : NodeType
  nodeTitle : String
  nodeIcon : String
  eventType : Nat
  interruptData : String
deriving DecidableEq

/-- entity.InterruptEvent (the fields read by the application layer).
`eventType` carries the entity.InterruptEventType numeric value;
`interruptEventLLMType` is the entity.InterruptEventLLM constant. -/
structure InterruptEventRec where
  id : Int
  nodeKey : String
  nodeType : NodeType
  nodeTitle : String
  nodeIcon : String
  eventType : Nat
  interruptData : String
  toolInterruptEvent : Option ToolInterruptEvent
deriving DecidableEq

/-- entity.InterruptEventLLM; modelled constant of the enum value. -/
def interruptEventLLMType : Nat := 4

/-- entity.WorkflowExecution, restricted to the fields GetProcess reads
after fetching it from the domain service. -/
structure WorkflowExecutionRec where
  id : Int
  workflowID : Int
  spaceID : Int
  status : WorkflowStatus
  durationMs : Nat
  failReason : Option String
  logID : String
  tokenInfo : Option TokenInfo
  appID : Option Int
  nodeCount : Nat
  nodeExecutions : List NodeExecution
  interruptEvents : List InterruptEventRec

/-- workflow.NodeEvent as built by GetProcess. -/
structure NodeEventRec where
  id : String
  nodeID : String
  nodeTitle : String
  nodeIcon : String
  data : String
  eventType : Nat
  schemaNodeID : String
deriving DecidableEq

/-- State threaded through GetProcess's loop over NodeExecutions
(workflow.go:706-749).  `endNodeIdx` tracks the `endNodeExe` pointer:
`some (some i)` means the captured exit-node result was itself appended at
index `i` of `results` (so a later in-place mutation is visible there);
`some none` means an exit-typed record was captured but the appended value
was a different object (merge replaced it or the record was held back into
a map), so mutation through the pointer does not reach `results`. -/
structure ProcState where
  results : List NodeResult
  batchMap : List (String × NodeResult)
  innerMap : List (String × NodeResult)
  successNum : Nat
  hasNodeErr : Bool
  endNodeIdx : Option (Option Nat)

/-- The initial loop state. -/
def procInit : ProcState :=
  { results := [], batchMap := [], innerMap := [], successNum := 0,
    hasNodeErr := false, endNodeIdx := none }

/-- One iteration of GetProcess's NodeExecutions loop
(workflow.go:709-749).  Mirrors the Go control flow: error bookkeeping,
conversion, exit-node capture, then the batch-merge branching keyed by
NodeID (for the NodeTypeBatch shell) or by ParentNodeID (for the generated
inner node carrying the IndexedExecutions), and finally the append with the
success counter.  Note the Go call at line 725 is
`mergeBatchModeNodes(inner, nr)` — the stored inner payload is passed as
the `parent` argument; the embedding reproduces that argument order.
The `*nodeExe.ParentNodeID` dereference is modelled with a default of ""
(the Go code would panic on a nil ParentNodeID; theorems about this
function assume records with IndexedExecutions carry a ParentNodeID). -/
def procStep (st : ProcState) (ne : NodeExecution) : ProcState :=
  let hasErr := st.hasNodeErr || (ne.status = NodeStatus.failed && ne.errorInfo.isSome)
  let nr := convertNodeExecution ne
  let isExit := ne.nodeType = NodeType.exit
  let endHeld : Option (Option Nat) := if isExit then some none else st.endNodeIdx
  if ne.nodeType = NodeType.batch then
    match alLookup st.innerMap ne.nodeID with
    | some inner =>
      let nr2 := mergeBatchModeNodes inner nr
      { results := st.results ++ [nr2]
        batchMap := st.batchMap
        innerMap := alRemove st.innerMap ne.nodeID
        successNum := st.successNum + (if nr2.nodeStatus = NodeStatus.success then 1 else 0)
        hasNodeErr := hasErr
        endNodeIdx := endHeld }
    | none =>
      { st with batchMap := alStore st.batchMap ne.nodeID nr,
                hasNodeErr := hasErr, endNodeIdx := endHeld }
  else if !ne.indexedExecutions.isEmpty &&
      isGeneratedNodeForBatchMode ne.nodeID (ne.parentNodeID.getD "") then
    match alLookup st.batchMap (ne.parentNodeID.getD "") with
    | some parentRes =>
      let nr2 := mergeBatchModeNodes parentRes nr
      { results := st.results ++ [nr2]
        batchMap := alRemove st.batchMap (ne.parentNodeID.getD "")
        innerMap := st.innerMap
        successNum := st.successNum + (if nr2.nodeStatus = NodeStatus.success then 1 else 0)
        hasNodeErr := hasErr
        endNodeIdx := endHeld }
    | none =>
      { st with innerMap := alStore st.innerMap (ne.parentNodeID.getD "") nr,
                hasNodeErr := hasErr, endNodeIdx := endHeld }
  else
    { results := st.results ++ [nr]
      batchMap := st.batchMap
      innerMap := st.innerMap
      successNum := st.successNum + (if nr.nodeStatus = NodeStatus.success then 1 else 0)
      hasNodeErr := hasErr
      endNodeIdx := if isExit then some (some st.results.length) else st.endNodeIdx }

/-- The zero value of workflow.NodeResult. -/
def defaultNodeResult : NodeResult :=
  NodeResult.mk "" "" "" NodeStatus.running "" "" "" "" none none "" none none
    none none none none none none

instance : Inhabited NodeResult := ⟨defaultNodeResult⟩

/-- In-place update of ErrorInfo/ErrorLevel on a NodeResult, as done
through the `endNodeExe` / `NodeResults[0]` pointers in the fail-reason
block. -/
def setNodeResultError (nr : NodeResult) (msg : String) : NodeResult :=
  match nr with
  | .mk nodeId nodeName nodeType nodeStatus _ input output nodeExeCost tokenAndCost
      rawOutput _ index items isBatch batch extra executeId subExecuteId needAsync =>
    NodeResult.mk nodeId nodeName nodeType nodeStatus msg input output nodeExeCost
      tokenAndCost rawOutput levelError index items isBatch batch extra executeId
      subExecuteId needAsync

/-- The synthesized failed end node appended when a workflow-level failure
has no node to carry it (workflow.go:765-772). -/
def syntheticEndNodeResult (failReason : String) : NodeResult :=
  NodeResult.mk exitNodeKey "" nodeTemplateTypeEndStr NodeStatus.failed failReason
    "" "" "" none none levelError none none none none none none none none

/-- The fail-reason attachment block of GetProcess (workflow.go:751-776),
acting on the loop's final state.  Returns the adjusted results list. -/
def applyFailReason (workflowFail : Bool) (failReason : Option String)
    (st : ProcState) : List NodeResult :=
  if workflowFail ∧ ¬ st.hasNodeErr then
    match failReason with
    | none => st.results
    | some reason =>
      match st.endNodeIdx with
      | some (some i) =>
        st.results.set i (setNodeResultError (st.results.getD i defaultNodeResult) reason)
      | some none => st.results
      | none =>
        if st.results.length = 1 ∧
            (st.results.headI.nodeType ≠ nodeTemplateTypeStartStr) then
          match st.results with
          | first :: rest => setNodeResultError first reason :: rest
          | [] => st.results
        else
          st.results ++ [syntheticEndNodeResult reason]
  else st.results

/-- The leftover append of GetProcess (workflow.go:778-784): every parent
shell still cached in batchNodeID2NodeResult is appended to the results,
counting successes.  (Go iterates the map in unspecified order; the model
uses the association list's insertion order.) -/
def appendLeftovers (results : List NodeResult) (successNum : Nat)
    (m : List (String × NodeResult)) : List NodeResult × Nat :=
  m.foldl
    (fun acc p =>
      (acc.1 ++ [p.2],
       acc.2 + (if p.2.nodeStatus = NodeStatus.success then 1 else 0)))
    (results, successNum)

/-- The NodeEvent built for one pending interrupt event
(workflow.go:790-814), including the LLM tool-interrupt unwrapping.  The
`ie.ToolInterruptEvent` dereference for an LLM event is modelled with a
default (the Go code would panic when it is nil; theorems assume LLM events
carry it).  The icon is resolved through the node icon URL cache, passed in
as a function. -/
def nodeEventOfInterrupt (iconCache : NodeType → String)
    (ie0 : InterruptEventRec) : NodeEventRec :=
  let ie :=
    if ie0.eventType = interruptEventLLMType then
      let t := ie0.toolInterruptEvent.getD
        { nodeKey := "", nodeType := NodeType.other 0, nodeTitle := "",
          nodeIcon := "", eventType := 0, interruptData := "" }
      { id := ie0.id, nodeKey := t.nodeKey, nodeType := t.nodeType,
        nodeTitle := t.nodeTitle, nodeIcon := t.nodeIcon,
        eventType := t.eventType, interruptData := t.interruptData,
        toolInterruptEvent := none }
    else ie0
  { id := goItoaInt ie.id
    nodeID := ie.nodeKey
    nodeTitle := ie.nodeTitle
    nodeIcon := iconCache ie.nodeType
    data := ie.interruptData
    eventType := ie.eventType
    schemaNodeID := ie.nodeKey }

/-- workflow.GetWorkFlowProcessData, restricted to the fields the embedded
code computes.  `rate` keeps the exact ratio (successNum, nodeCount) whose
"%.2f" rendering the Go code returns. -/
structure GetProcessData where
  workFlowId : String
  executeId : String
  executeStatus : WorkflowStatus
  workflowExeCost : String
  reason : Option String
  logID : String
  tokenAndCost : Option TokenAndCost
  projectId : Option String
  rate : Option (Nat × Nat)
  nodeResults : List NodeResult
  nodeEvents : List NodeEventRec

/-- The response construction of GetProcess (workflow.go:670-816), given
the fetched WorkflowExecution entity and the node icon URL cache.  The
fetch itself, space check and panic-recovery boundary are upstream of this
pure projection. -/
def getProcessData (iconCache : NodeType → String)
    (wf : WorkflowExecutionRec) : GetProcessData :=
  let status :=
    if wf.status = WorkflowStatus.interrupted then WorkflowStatus.running
    else wf.status
  let workflowFail := status = WorkflowStatus.failed
  let st := wf.nodeExecutions.foldl procStep procInit
  let afterFail := applyFailReason workflowFail wf.failReason st
  let lr := appendLeftovers afterFail st.successNum st.batchMap
  let finalResults := lr.1
  let successNum := lr.2
  { workFlowId := goItoaInt wf.workflowID
    executeId := goItoaInt wf.id
    executeStatus := status
    workflowExeCost := formatDurationMs wf.durationMs
    reason := wf.failReason
    logID := wf.logID
    tokenAndCost := wf.tokenInfo.map tokenAndCostOf
    projectId := wf.appID.map goItoaInt
    rate := if wf.nodeCount > 0 then some (successNum, wf.nodeCount) else none
    nodeResults := finalResults
    nodeEvents := wf.interruptEvents.map (nodeEventOfInterrupt iconCache) }

/-- Classification of a DataMessage (entity.Answer / FunctionCall /
ToolResponse). -/
inductive DataKind where
  | answer
  | functionCall
  | toolResponse
deriving DecidableEq

/-- A Go error value as seen through errors.As: either somewhere in its
chain a typed vo.WorkflowError (code + message), or any other error. -/
inductive GoError where
  | workflowError (code : Int) (msg : String)
  | plainError (msg : String)
deriving DecidableEq

/-- entity.StateMessage (the fields the converter reads).  `lastError`
models `LastError error` (`none` = nil). -/
structure StateMessageRec where
  executeID : Int
  status : WorkflowStatus
  lastError : Option GoError
deriving DecidableEq

/-- entity.DataMessage together with the Message-level content fields the
converter reads for data messages. -/
structure DataMessageRec where
  executeID : Int
  kind : DataKind
  nodeTitle : String
  content : String
  last : Bool
  nodeType : NodeType
  nodeID : String
  usage : Option TokenInfo
deriving DecidableEq

/-- The body of an entity.Message: exactly one of StateMessage/DataMessage
is non-nil (the entity invariant).  A state message may carry the
InterruptEvent read in the Interrupted case. -/
inductive MessageBody where
  | state (sm : StateMessageRec) (interruptEvent : Option InterruptEventRec)
  | data (dm : DataMessageRec)
deriving DecidableEq

/-- entity.Message as consumed by convertStreamRunEvent. -/
structure MessageRec where
  spaceID : Int
  body : MessageBody
deriving DecidableEq

/-- workflow.Interrupt. -/
structure InterruptPayload where
  eventID : String
  interruptType : Nat
  inData : String
deriving DecidableEq

/-- workflow.OpenAPIStreamRunFlowResponse, restricted to the fields the
converter sets. -/
structure StreamResp where
  id : String
  event : String
  debugUrl : Option String
  errorCode : Option Int
  errorMessage : Option String
  interruptData : Option InterruptPayload
  nodeTitle : Option String
  content : Option String
  contentType : Option String
  nodeIsFinish : Option Bool
  nodeType : Option String
  nodeID : Option String
  token : Option Nat
  nodeSeqID : Option String
deriving DecidableEq

/-- An all-`none` response with the given id and event, to be refined per
event kind. -/
def baseResp (id event : String) : StreamResp :=
  { id := id, event := event, debugUrl := none, errorCode := none,
    errorMessage := none, interruptData := none, nodeTitle := none,
    content := none, contentType := none, nodeIsFinish := none,
    nodeType := none, nodeID := none, token := none, nodeSeqID := none }

/-- Modelled: debugutil.GetWorkflowDebugURL (external helper; only used as
an opaque deterministic function of its three integer arguments). -/
def debugURL (workflowID spaceID executeID : Int) : String :=
  "debug:" ++ goItoaInt workflowID ++ ":" ++ goItoaInt spaceID ++ ":" ++
    goItoaInt executeID

/-- The correlation key emitted for an interrupt:
fmt.Sprintf("%d/%d", executeID, msg.InterruptEvent.ID)
(workflow.go:1431,1443). -/
def interruptEventKey (executeID eventID : Int) : String :=
  goItoaInt executeID ++ "/" ++ goItoaInt eventID

/-- The closure state of convertStreamRunEvent (workflow.go:1383-1389):
message counter, root execution/space ids, and the per-node Answer
sequence counters (a Go map read with zero default, modelled as a total
function). -/
structure ConvState where
  messageID : Nat
  executeID : Int
  spaceID : Int
  nodeSeq : String → Nat

/-- The state of a fresh converter closure. -/
def convInit : ConvState :=
  { messageID := 0, executeID := 0, spaceID := 0, nodeSeq := fun _ => 0 }

/-- Outcome of converting one message: an emitted client event, a skip
(schema.ErrNoValue), or a Go panic escaping the converter. -/
inductive StepOut where
  | emit (r : StreamResp)
  | skip
  | goPanic (msg : String)

/-- One application of the closure returned by convertStreamRunEvent
(workflow.go:1391-1495).  The deferred `messageID++` runs only when the
returned error is nil, i.e. on an emitted event.  The nil dereference of
`msg.InterruptEvent` on an interrupted state message without an attached
event is modelled as a panic, matching Go. -/
def convStep (workflowID : Int) (s : ConvState) (msg : MessageRec) :
    ConvState × StepOut :=
  match msg.body with
  | .state sm iev =>
    if s.executeID > 0 ∧ s.executeID ≠ sm.executeID then (s, .skip)
    else
      match sm.status with
      | .success =>
        ({ s with messageID := s.messageID + 1 },
         .emit { baseResp (goItoaNat s.messageID) "Done" with
                   debugUrl := some (debugURL workflowID s.spaceID s.executeID) })
      | .failed =>
        match sm.lastError with
        | some (.workflowError code m) =>
          ({ s with messageID := s.messageID + 1 },
           .emit { baseResp (goItoaNat s.messageID) "Error" with
                     debugUrl := some (debugURL workflowID s.spaceID s.executeID),
                     errorCode := some code, errorMessage := some m })
        | _ => (s, .goPanic "stream run last error is not a WorkflowError")
      | .cancelled =>
        match sm.lastError with
        | some (.workflowError code m) =>
          ({ s with messageID := s.messageID + 1 },
           .emit { baseResp (goItoaNat s.messageID) "Error" with
                     debugUrl := some (debugURL workflowID s.spaceID s.executeID),
                     errorCode := some code, errorMessage := some m })
        | _ => (s, .goPanic "stream run last error is not a WorkflowError")
      | .interrupted =>
        match iev with
        | none => (s, .goPanic "nil interrupt event")
        | some ie =>
          match ie.toolInterruptEvent with
          | none =>
            ({ s with messageID := s.messageID + 1 },
             .emit { baseResp (goItoaNat s.messageID) "Interrupt" with
                       debugUrl := some (debugURL workflowID s.spaceID s.executeID),
                       interruptData := some
                         { eventID := interruptEventKey s.executeID ie.id,
                           interruptType := ie.eventType,
                           inData := ie.interruptData } })
          | some t =>
            ({ s with messageID := s.messageID + 1 },
             .emit { baseResp (goItoaNat s.messageID) "Interrupt" with
                       debugUrl := some (debugURL workflowID s.spaceID s.executeID),
                       interruptData := some
                         { eventID := interruptEventKey s.executeID ie.id,
                           interruptType := t.eventType,
                           inData := t.interruptData } })
      | .running =>
        ({ s with executeID := sm.executeID, spaceID := msg.spaceID }, .skip)
  | .data dm =>
    if dm.kind ≠ DataKind.answer then (s, .skip)
    else if s.executeID > 0 ∧ s.executeID ≠ dm.executeID then (s, .skip)
    else
      let seq := s.nodeSeq dm.nodeID
      ({ s with messageID := s.messageID + 1,
                nodeSeq := fun x => if x = dm.nodeID then seq + 1 else s.nodeSeq x },
       .emit { baseResp (goItoaNat s.messageID) "Message" with
                 nodeTitle := some dm.nodeTitle,
                 content := some dm.content,
                 contentType := some "text",
                 nodeIsFinish := some dm.last,
                 nodeType := some (displayKey dm.nodeType),
                 nodeID := some dm.nodeID,
                 token := dm.usage.map (fun u => u.inputTokens + u.outputTokens),
                 nodeSeqID := some (goItoaNat seq) })

/-- Termination of the converted stream as observed by its consumer:
normal exhaustion, or a panic raised inside the converter during Recv. -/
inductive StreamTerm where
  | completed
  | panicked (msg : String)
deriving DecidableEq

/-- Running the converter over a message sequence
(schema.StreamReaderWithConvert): skips, emitted events in order, and the
termination outcome.  A converter panic kills the stream at that point. -/
def convRun (workflowID : Int) (s : ConvState) :
    List MessageRec → List StreamResp × StreamTerm
  | [] => ([], .completed)
  | m :: rest =>
    match convStep workflowID s m with
    | (s2, .emit r) =>
      (r :: (convRun workflowID s2 rest).1, (convRun workflowID s2 rest).2)
    | (s2, .skip) => convRun workflowID s2 rest
    | (_, .goPanic pm) => ([], .panicked pm)

/-- Go strings.Split with separator "/" (single character), on the
character list of the string. -/
def splitSlash : List Char → List (List Char)
  | [] => [[]]
  | c :: rest =>
    if c = '/' then [] :: splitSlash rest
    else
      match splitSlash rest with
      | [] => [[c]]
      | g :: gs => (c :: g) :: gs

/-- The numeric value of a decimal digit character. -/
def charDigitVal (c : Char) : Nat := c.toNat - 48

/-- Horner evaluation of a decimal digit list, as performed by
strconv.ParseInt's digit loop. -/
def digitsValFrom (acc : Nat) (l : List Char) : Nat :=
  l.foldl (fun a c => a * 10 + charDigitVal c) acc

/-- Go strconv.ParseInt(s, 10, 64): optional single leading sign, one or
more decimal digits, value within the int64 range. -/
def parseGoIntChars (l : List Char) : Option Int :=
  match l with
  | [] => none
  | c :: rest =>
    let p : Bool × List Char :=
      if c = '-' then (true, rest)
      else if c = '+' then (false, rest)
      else (false, l)
    let ds := p.2
    if ds.isEmpty then none
    else if ds.all (fun c2 => c2.isDigit) then
      let n : Int := digitsValFrom 0 ds
      let v : Int := if p.1 then -n else n
      if -(2 ^ 63) ≤ v ∧ v ≤ 2 ^ 63 - 1 then some v else none
    else none

/-- strconv.ParseInt on a String. -/
def parseGoInt64 (s : String) : Option Int := parseGoIntChars s.data

/-- The EventID parsing prefix of OpenAPIStreamResume
(workflow.go:1600-1613): split on "/", require exactly two segments, parse
each as an int64. -/
def parseStreamResumeEventID (s : String) : Except String (Int × Int) :=
  match splitSlash s.data with
  | [a, b] =>
    match parseGoIntChars a with
    | none => .error ("failed to parse executeID from eventID segment " ++ String.mk a)
    | some executeID =>
      match parseGoIntChars b with
      | none => .error ("failed to parse eventID from eventID segment " ++ String.mk b)
      | some eventID => .ok (executeID, eventID)
  | _ => .error ("invalid event id when stream resume: " ++ s)

/-- The errno codes the embedded operations use (errno package constants;
their numeric values are external, so an enumeration models them). -/
inductive ErrnoCode where
  | workflowExecuteFail
  | workflowOperationFail
  | invalidParameter
  | workflowNotPublished
  | interruptNotSupported
deriving DecidableEq

/-- An error value as the application layer distinguishes them: a typed
status error (vo.StatusError, carrying an errno code and a cause message)
or an untyped Go error. -/
inductive AppError where
  | statusError (code : ErrnoCode) (cause : String)
  | goError (msg : String)
deriving DecidableEq

/-- vo.WrapIfNeeded(code, err, KV("cause", root)): an already-typed status
error passes through unchanged; anything else is wrapped into the given
code with the root cause message. -/
def wrapIfNeeded (code : ErrnoCode) (e : AppError) : AppError :=
  match e with
  | .statusError c m => .statusError c m
  | .goError m => .statusError code m

/-- Outcome of the body of a public operation before its deferred
recover/wrap boundary runs: a value, an error return, or a panic. -/
inductive GoResult (α : Type) where
  | ok (a : α)
  | fail (e : AppError)
  | panicked (msg : String)

/-- The deferred boundary of every public operation (e.g.
workflow.go:505-513): a panic is recovered into an error
(safego.NewPanicErr), and any error is wrapped with the operation's errno
code via vo.WrapIfNeeded, keeping already-typed errors. -/
def recoverBoundary {α : Type} (code : ErrnoCode) : GoResult α → Except AppError α
  | .ok a => .ok a
  | .fail e => .error (wrapIfNeeded code e)
  | .panicked m => .error (wrapIfNeeded code (.goError m))

/-- The validation error returned when both project id and bot id are set
(workflow.go:546 etc.), as the caller sees it after the boundary wraps the
plain errors.New value with ErrWorkflowExecuteFail. -/
def bothSetValidationError : AppError :=
  AppError.statusError ErrnoCode.workflowExecuteFail
    "project_id and bot_id cannot be set at the same time"

/-- WorkFlowTestRunRequest, restricted to the fields TestRun reads (string
ids already parsed; mustParseInt64 panics are out of scope of the
claims). -/
structure TestRunReq where
  workflowID : Int
  spaceID : Int
  projectID : Option Int
  botID : Option Int
  commitID : String
  input : List (String × String)

/-- The external collaborators TestRun calls, given as oracles: the space
membership check (`none` = passes) and the domain AsyncExecute outcome. -/
structure TestRunDeps where
  spaceCheck : Option AppError
  asyncExecute : Except AppError Int

/-- Body of TestRun (workflow.go:504-560) before the recover/wrap
boundary.  The second component records whether the domain
AsyncExecute was invoked. -/
def testRunInner (req : TestRunReq) (deps : TestRunDeps) : GoResult Int × Bool :=
  match deps.spaceCheck with
  | some e => (.fail e, false)
  | none =>
    if req.projectID.isSome && req.botID.isSome then
      (.fail (.goError "project_id and bot_id cannot be set at the same time"), false)
    else
      match deps.asyncExecute with
      | .error e => (.fail e, true)
      | .ok exeID => (.ok exeID, true)

/-- TestRun as the caller sees it: the boundary applied to the body.  The
success value is the execution id placed in the response. -/
def testRun (req : TestRunReq) (deps : TestRunDeps) : Except AppError Int × Bool :=
  let r := testRunInner req deps
  (recoverBoundary ErrnoCode.workflowExecuteFail r.1, r.2)

/-- WorkflowNodeDebugV2Request, restricted to the fields NodeDebug
reads. -/
structure NodeDebugReq where
  workflowID : Int
  spaceID : Int
  nodeID : String
  projectID : Option Int
  botID : Option Int
  input : List (String × String)
  batch : List (String × String)
  setting : List (String × String)

/-- Oracles for NodeDebug: space check and domain AsyncExecuteNode. -/
structure NodeDebugDeps where
  spaceCheck : Option AppError
  asyncExecuteNode : Except AppError Int

/-- The input merge of NodeDebug (workflow.go:582-591): input, batch and
setting operands merged into one map, later writes overwriting earlier
keys. -/
def mergeNodeDebugInput (input batch setting : List (String × String)) :
    List (String × String) :=
  (input ++ batch ++ setting).foldl (fun m p => alStore m p.1 p.2) []

/-- Body of NodeDebug (workflow.go:562-632) before the boundary; the
second component records whether the domain AsyncExecuteNode was
invoked. -/
def nodeDebugInner (req : NodeDebugReq) (deps : NodeDebugDeps) : GoResult Int × Bool :=
  match deps.spaceCheck with
  | some e => (.fail e, false)
  | none =>
    if req.projectID.isSome && req.botID.isSome then
      (.fail (.goError "project_id and bot_id cannot be set at the same time"), false)
    else
      match deps.asyncExecuteNode with
      | .error e => (.fail e, true)
      | .ok exeID => (.ok exeID, true)

/-- NodeDebug as the caller sees it. -/
def nodeDebug (req : NodeDebugReq) (deps : NodeDebugDeps) : Except AppError Int × Bool :=
  let r := nodeDebugInner req deps
  (recoverBoundary ErrnoCode.workflowExecuteFail r.1, r.2)

/-- The JSON `parameters` field of an OpenAPI run request: absent, present
but not valid JSON, or a parsed map. -/
inductive ParamsField where
  | absent
  | invalid
  | valid (m : List (String × String))
deriving DecidableEq

/-- OpenAPIRunFlowRequest, restricted to the fields OpenAPIRun and
OpenAPIStreamRun read. -/
structure OpenAPIRunReq where
  workflowID : Int
  parameters : ParamsField
  appID : Option Int
  projectID : Option Int
  botID : Option Int
  connectorID : Option Int
  isAsync : Bool

/-- Workflow metadata as returned by the domain Get with MetaOnly. -/
structure WfMeta where
  id : Int
  spaceID : Int
  latestPublishedVersion : Option String

/-- vo.TerminatePlan. -/
inductive TerminatePlan where
  | returnVariables
  | useAnswerContent
deriving DecidableEq

/-- The WorkflowExecution summary returned by the domain SyncExecute, in
the fields OpenAPIRun reads. -/
structure SyncExecResult where
  id : Int
  spaceID : Int
  status : WorkflowStatus
  output : Option String
  tokenInfo : Option TokenInfo

/-- Modelled: consts.WebSDKConnectorID (constant value external to the
embedded source). -/
def webSDKConnectorID : Int := 10000122

/-- Oracles for OpenAPIRun: the api-key identity, domain Get, space check,
and both execution modes' outcomes. -/
structure OpenAPIRunDeps where
  userID : Int
  apiConnectorID : Int
  getMeta : Except AppError WfMeta
  spaceCheck : Option AppError
  asyncExecute : Except AppError Int
  syncExecute : Except AppError (SyncExecResult × TerminatePlan)

/-- OpenAPIRunFlowResponse, restricted to the fields built by
OpenAPIRun. -/
structure OpenAPIRunResp where
  data : Option String
  executeID : Option String
  debugUrl : Option String
  token : Option Nat
  cost : Option String
deriving DecidableEq

/-- Modelled: sonic.MarshalString of the fixed answer envelope
(workflow.go:1753-1757); kept as an injective rendering of the data
string. -/
def answerOutputString (data : String) : String :=
  "content_type=1;type_for_model=2;data=" ++ data

/-- The config-building and validation stages shared by OpenAPIRun and
OpenAPIStreamRun (workflow.go:1660-1722 / 1511-1575): parameters JSON,
meta fetch, published check, space check, AppID/ProjectID/BotID
resolution, then the mutual-exclusion validation.  Returns the resolved
(appID, agentID) on success. -/
def openAPIRunValidate (req : OpenAPIRunReq) (getMeta : Except AppError WfMeta)
    (spaceCheck : Option AppError) :
    GoResult (WfMeta × Option Int × Option Int) :=
  match req.parameters with
  | .invalid => .fail (.statusError ErrnoCode.invalidParameter "invalid parameters json")
  | _ =>
    match getMeta with
    | .error e => .fail e
    | .ok meta =>
      if meta.latestPublishedVersion.isNone then
        .fail (.statusError ErrnoCode.workflowNotPublished "")
      else
        match spaceCheck with
        | some e => .fail e
        | none =>
          let appID := if req.appID.isSome then req.appID else req.projectID
          let agentID := req.botID
          if appID.isSome && agentID.isSome then
            .fail (.goError "project_id and bot_id cannot be set at the same time")
          else
            .ok (meta, appID, agentID)

/-- Body of OpenAPIRun (workflow.go:1647-1774) before the boundary; the
second component records whether a domain execute (async or sync) was
invoked.  Nil dereferences of wfExe.Output / wfExe.TokenInfo in the
response construction surface as panics, as in Go. -/
def openAPIRunInner (req : OpenAPIRunReq) (deps : OpenAPIRunDeps) :
    GoResult OpenAPIRunResp × Bool :=
  match openAPIRunValidate req deps.getMeta deps.spaceCheck with
  | .fail e => (.fail e, false)
  | .panicked m => (.panicked m, false)
  | .ok (meta, _, _) =>
    if req.isAsync then
      match deps.asyncExecute with
      | .error e => (.fail e, true)
      | .ok exeID =>
        (.ok { data := none,
               executeID := some (goItoaInt exeID),
               debugUrl := some (debugURL meta.id meta.spaceID exeID),
               token := none, cost := none }, true)
    else
      match deps.syncExecute with
      | .error e => (.fail e, true)
      | .ok (wfExe, tPlan) =>
        if wfExe.status = WorkflowStatus.interrupted then
          (.fail (.statusError ErrnoCode.interruptNotSupported ""), true)
        else
          let dataV : GoResult (Option String) :=
            if tPlan = TerminatePlan.returnVariables then .ok wfExe.output
            else
              match wfExe.output with
              | none => .panicked "invalid memory address or nil pointer dereference"
              | some o => .ok (some (answerOutputString o))
          match dataV with
          | .fail e => (.fail e, true)
          | .panicked m => (.panicked m, true)
          | .ok d =>
            match wfExe.tokenInfo with
            | none => (.panicked "invalid memory address or nil pointer dereference", true)
            | some ti =>
              (.ok { data := d,
                     executeID := some (goItoaInt wfExe.id),
                     debugUrl := some (debugURL meta.id wfExe.spaceID wfExe.id),
                     token := some (ti.inputTokens + ti.outputTokens),
                     cost := some "0.00000" }, true)

/-- OpenAPIRun as the caller sees it. -/
def openAPIRun (req : OpenAPIRunReq) (deps : OpenAPIRunDeps) :
    Except AppError OpenAPIRunResp × Bool :=
  let r := openAPIRunInner req deps
  (recoverBoundary ErrnoCode.workflowExecuteFail r.1, r.2)

/-- Oracles for OpenAPIStreamRun: identity, meta fetch, space check, and
the internal message stream the domain StreamExecute produces. -/
structure OpenAPIStreamRunDeps where
  userID : Int
  apiConnectorID : Int
  getMeta : Except AppError WfMeta
  spaceCheck : Option AppError
  streamExecute : Except AppError (List MessageRec)

/-- Body of OpenAPIStreamRun (workflow.go:1498-1585) before the boundary:
validation, then the domain StreamExecute; on success it returns the
internal messages paired with the workflow id the converter closure is
keyed to.  The second component records whether StreamExecute was
invoked. -/
def openAPIStreamRunInner (req : OpenAPIRunReq) (deps : OpenAPIStreamRunDeps) :
    GoResult (List MessageRec × Int) × Bool :=
  match openAPIRunValidate req deps.getMeta deps.spaceCheck with
  | .fail e => (.fail e, false)
  | .panicked m => (.panicked m, false)
  | .ok (meta, _, _) =>
    match deps.streamExecute with
    | .error e => (.fail e, true)
    | .ok msgs => (.ok (msgs, meta.id), true)

/-- OpenAPIStreamRun as the caller sees it: the recover/wrap boundary
applies to the body only; the returned stream is converted lazily
afterwards (schema.StreamReaderWithConvert), outside the boundary, so the
events and any converter panic reach the consumer unwrapped. -/
def openAPIStreamRun (req : OpenAPIRunReq) (deps : OpenAPIStreamRunDeps) :
    Except AppError (List StreamResp × StreamTerm) × Bool :=
  let r := openAPIStreamRunInner req deps
  (match recoverBoundary ErrnoCode.workflowExecuteFail r.1 with
   | .error e => .error e
   | .ok (msgs, wid) => .ok (convRun wid convInit msgs), r.2)

/-- The execution id a message originates from (StateMessage.ExecuteID or
DataMessage.ExecuteID). -/
def msgExecID (m : MessageRec) : Int :=
  match m.body with
  | .state sm _ => sm.executeID
  | .data dm => dm.executeID

/-- Example: one per-iteration child snapshot. -/
def exChild : NodeExecution :=
  NodeExecution.mk "c" 100 "c" NodeType.llm NodeStatus.success 0 none none none
    none none none (some "n1_inner") 0 none [] none none

/-- Example: the generated inner node of batch node "n1", carrying the two
IndexedExecutions (the inner payload half). -/
def exGenInner : NodeExecution :=
  NodeExecution.mk "n1_inner" 100 "inner" NodeType.llm NodeStatus.success 1000
    none none none none none none (some "n1") 0 none [some exChild, some exChild]
    none none

/-- Example: the NodeTypeBatch shell record of batch node "n1" (the parent
shell half). -/
def exShell : NodeExecution :=
  NodeExecution.mk "n1" 100 "batchNode" NodeType.batch NodeStatus.success 1500
    (some "in") (some "out") none none none none none 0 none [] none none

/-- Example execution whose NodeExecutions list the parent shell first. -/
def exWfShellFirst : WorkflowExecutionRec :=
  { id := 9, workflowID := 7, spaceID := 3, status := WorkflowStatus.success,
    durationMs := 2000, failReason := none, logID := "lg", tokenInfo := none,
    appID := none, nodeCount := 2, nodeExecutions := [exShell, exGenInner],
    interruptEvents := [] }

/-- Example execution with the same records, inner payload first. -/
def exWfInnerFirst : WorkflowExecutionRec :=
  { exWfShellFirst with nodeExecutions := [exGenInner, exShell] }

/-- Example execution containing only the parent shell half. -/
def exWfShellOnly : WorkflowExecutionRec :=
  { exWfShellFirst with nodeExecutions := [exShell] }

/-- Example execution containing only the inner payload half. -/
def exWfInnerOnly : WorkflowExecutionRec :=
  { exWfShellFirst with nodeExecutions := [exGenInner] }

/-- An empty icon cache for the examples. -/
def exIconCache : NodeType → String := fun _ => ""

/-! ## Helper lemmas -/

theorem convertNodeExecution_nodeId (ne : NodeExecution) :
    (convertNodeExecution ne).nodeId = ne.nodeID := by
  cases ne
  rfl

theorem mergeBatchModeNodes_nodeId (p i : NodeResult) :
    (mergeBatchModeNodes p i).nodeId = p.nodeId := rfl

theorem setNodeResultError_nodeId (nr : NodeResult) (msg : String) :
    (setNodeResultError nr msg).nodeId = nr.nodeId := by
  cases nr
  rfl

theorem alLookup_mem {α : Type} {m : List (String × α)} {k : String} {v : α}
    (h : alLookup m k = some v) : (k, v) ∈ m := by
  induction m with
  | nil => simp [alLookup] at h
  | cons p rest ih =>
    rw [alLookup] at h
    by_cases hk : p.1 = k
    · rw [if_pos hk] at h
      injection h with hv
      have hp : p = (k, v) := by
        rw [← hk, ← hv]
      rw [← hp]
      exact List.mem_cons_self _ _
    · rw [if_neg hk] at h
      exact List.mem_cons_of_mem _ (ih h)

theorem mem_alRemove {α : Type} {m : List (String × α)} {k : String}
    {p : String × α} : p ∈ alRemove m k ↔ p ∈ m ∧ p.1 ≠ k := by
  induction m with
  | nil => simp [alRemove]
  | cons q rest ih =>
    by_cases hq : q.1 = k
    · rw [alRemove, if_pos hq, ih]
      constructor
      · exact fun h => ⟨List.mem_cons_of_mem _ h.1, h.2⟩
      · rintro ⟨h1, h2⟩
        rcases List.mem_cons.mp h1 with rfl | hm
        · exact absurd hq h2
        · exact ⟨hm, h2⟩
    · rw [alRemove, if_neg hq]
      constructor
      · intro hp
        rcases List.mem_cons.mp hp with rfl | hm
        · exact ⟨List.mem_cons_self _ _, hq⟩
        · exact ⟨List.mem_cons_of_mem _ (ih.mp hm).1, (ih.mp hm).2⟩
      · rintro ⟨h1, h2⟩
        rcases List.mem_cons.mp h1 with rfl | hm
        · exact List.mem_cons_self _ _
        · exact List.mem_cons_of_mem _ (ih.mpr ⟨hm, h2⟩)

theorem mem_alStore {α : Type} {m : List (String × α)} {k : String} {v : α}
    {p : String × α} (h : p ∈ alStore m k v) : p = (k, v) ∨ (p ∈ m ∧ p.1 ≠ k) := by
  rw [alStore, List.mem_append] at h
  rcases h with h | h
  · right
    exact mem_alRemove.mp h
  · left
    simpa using h

theorem alLookup_append {α : Type} (a b : List (String × α)) (k : String) :
    alLookup (a ++ b) k =
      match alLookup a k with
      | some v => some v
      | none => alLookup b k := by
  induction a with
  | nil => simp [alLookup]
  | cons p rest ih =>
    by_cases hk : p.1 = k
    · simp [alLookup, hk]
    · simpa [alLookup, hk] using ih

theorem alLookup_alRemove_self {α : Type} (m : List (String × α)) (k : String) :
    alLookup (alRemove m k) k = none := by
  induction m with
  | nil => rfl
  | cons p rest ih =>
    by_cases hk : p.1 = k
    · rw [alRemove, if_pos hk]
      exact ih
    · rw [alRemove, if_neg hk, alLookup, if_neg hk]
      exact ih

theorem alLookup_alRemove_ne {α : Type} (m : List (String × α)) {k k2 : String}
    (h : k2 ≠ k) : alLookup (alRemove m k) k2 = alLookup m k2 := by
  induction m with
  | nil => rfl
  | cons p rest ih =>
    by_cases hk : p.1 = k
    · have hp2 : ¬ p.1 = k2 := by
        rw [hk]
        exact fun he => h he.symm
      rw [alRemove, if_pos hk, alLookup, if_neg hp2]
      exact ih
    · by_cases hp2 : p.1 = k2
      · rw [alRemove, if_neg hk, alLookup, if_pos hp2, alLookup, if_pos hp2]
      · rw [alRemove, if_neg hk, alLookup, if_neg hp2, alLookup, if_neg hp2]
        exact ih

theorem alLookup_alStore_self {α : Type} (m : List (String × α)) (k : String)
    (v : α) : alLookup (alStore m k v) k = some v := by
  rw [alStore, alLookup_append, alLookup_alRemove_self]
  simp [alLookup]

theorem alLookup_alStore_ne {α : Type} (m : List (String × α)) {k k2 : String}
    (v : α) (h : k2 ≠ k) : alLookup (alStore m k v) k2 = alLookup m k2 := by
  rw [alStore, alLookup_append]
  rw [alLookup_alRemove_ne m h]
  cases hl : alLookup m k2 with
  | some w => rfl
  | none =>
    have : ¬ (k, v).1 = k2 := fun he => h he.symm
    simp [alLookup, this]

/-! ## Claim theorems: batch merge (C9, C1, C2) -/

/-- Claim C9: for every pair of batch-node halves handed to the merge, the
resulting NodeResult takes NodeId, NodeName, NodeStatus, ErrorInfo,
ErrorLevel, Input, Output, RawOutput, NodeExeCost and TokenAndCost from the
parent shell argument, and NodeType, IsBatch, the serialized Batch array
and Extra from the inner payload argument (mergeBatchModeNodes,
workflow.go:1350-1372). -/
theorem mergeBatchModeNodes_takes_fields_from_halves (parent inner : NodeResult) :
    (mergeBatchModeNodes parent inner).nodeId = parent.nodeId ∧
    (mergeBatchModeNodes parent inner).nodeName = parent.nodeName ∧
    (mergeBatchModeNodes parent inner).nodeStatus = parent.nodeStatus ∧
    (mergeBatchModeNodes parent inner).errorInfo = parent.errorInfo ∧
    (mergeBatchModeNodes parent inner).errorLevel = parent.errorLevel ∧
    (mergeBatchModeNodes parent inner).input = parent.input ∧
    (mergeBatchModeNodes parent inner).output = parent.output ∧
    (mergeBatchModeNodes parent inner).rawOutput = parent.rawOutput ∧
    (mergeBatchModeNodes parent inner).nodeExeCost = parent.nodeExeCost ∧
    (mergeBatchModeNodes parent inner).tokenAndCost = parent.tokenAndCost ∧
    (mergeBatchModeNodes parent inner).nodeType = inner.nodeType ∧
    (mergeBatchModeNodes parent inner).isBatch = inner.isBatch ∧
    (mergeBatchModeNodes parent inner).batch = inner.batch ∧
    (mergeBatchModeNodes parent inner).extra = inner.extra :=
  ⟨rfl, rfl, rfl, rfl, rfl, rfl, rfl, rfl, rfl, rfl, rfl, rfl, rfl, rfl⟩

/-- Claim C1 (code evaluation at the failing input): with the parent shell
first, GetProcess produces the single merged NodeResult keyed "n1" with
IsBatch=true and a 2-entry batch array; with the inner payload first, the
swapped merge call at workflow.go:725 (`mergeBatchModeNodes(inner, nr)`)
produces instead a single result keyed by the generated node id
"n1_inner" with no IsBatch flag and no batch array — the merge is not
order-independent, contradicting the claim and the intent evidenced by the
parameter names of mergeBatchModeNodes and the sister call at line 735. -/
theorem getProcess_batch_merge_depends_on_order :
    ((getProcessData exIconCache exWfShellFirst).nodeResults.map
        (fun nr => (nr.nodeId, nr.isBatch, nr.batch.map List.length)) =
      [("n1", some true, some 2)]) ∧
    ((getProcessData exIconCache exWfInnerFirst).nodeResults.map
        (fun nr => (nr.nodeId, nr.isBatch, nr.batch.map List.length)) =
      [("n1_inner", (none : Option Bool), (none : Option Nat))]) :=
  ⟨rfl, rfl⟩

/-- Claim C2 (counterexample): an execution in which only the parent-shell
half of batch node "n1" is present still lists that node in NodeResults —
the leftover append at workflow.go:778-784 emits the cached unmerged
shell. -/
theorem getProcess_shell_only_half_is_listed :
    (getProcessData exIconCache exWfShellOnly).nodeResults.map
      NodeResult.nodeId = ["n1"] :=
  rfl

/-- The record-level hypotheses under which batch node `B` (with generated
inner node id `g`) has no parent-shell half in the execution: no record is
named `B`, and any record named `g` is a proper inner-payload record for
`B`. -/
def NoShellHalf (B g : String) (ne : NodeExecution) : Prop :=
  ne.nodeID ≠ B ∧
  (ne.nodeID = g → ne.nodeType ≠ NodeType.batch ∧
    ne.parentNodeID = some B ∧ ne.indexedExecutions ≠ [] ∧
    isGeneratedNodeForBatchMode g B = true)

/-- The three-part loop invariant for the inner-only-dropped direction:
no result and no cached parent shell carries id `B` or `g`, and cached
inner payloads either sit under key `B` or carry neither id. -/
def AbsentInv (B g : String) (st : ProcState) : Prop :=
  (∀ nr ∈ st.results, nr.nodeId ≠ B ∧ nr.nodeId ≠ g) ∧
  (∀ p ∈ st.batchMap, p.2.nodeId ≠ B ∧ p.2.nodeId ≠ g) ∧
  (∀ p ∈ st.innerMap, p.1 = B ∨ (p.2.nodeId ≠ B ∧ p.2.nodeId ≠ g))

theorem procStep_absentInv {B g : String} {st : ProcState} {ne : NodeExecution}
    (hne : NoShellHalf B g ne) (hinv : AbsentInv B g st) :
    AbsentInv B g (procStep st ne) := by
  obtain ⟨hne1, hne2⟩ := hne
  obtain ⟨hR, hBm, hIm⟩ := hinv
  have hconv : (convertNodeExecution ne).nodeId = ne.nodeID :=
    convertNodeExecution_nodeId ne
  by_cases hbt : ne.nodeType = NodeType.batch
  · have hng : ne.nodeID ≠ g := fun hg => (hne2 hg).1 hbt
    cases hlk : alLookup st.innerMap ne.nodeID with
    | some inner =>
      have hmem := alLookup_mem hlk
      have hinner : inner.nodeId ≠ B ∧ inner.nodeId ≠ g := by
        rcases hIm _ hmem with h1 | h2
        · exact absurd h1 hne1
        · exact h2
      refine ⟨?_, ?_, ?_⟩ <;> simp only [procStep, if_pos hbt, hlk]
      · intro nr hmem2
        rcases List.mem_append.mp hmem2 with hm | hm
        · exact hR _ hm
        · have heq : nr = mergeBatchModeNodes inner (convertNodeExecution ne) := by
            simpa using hm
          rw [heq, mergeBatchModeNodes_nodeId]
          exact hinner
      · exact fun p hp => hBm p hp
      · exact fun p hp => hIm p (mem_alRemove.mp hp).1
    | none =>
      refine ⟨?_, ?_, ?_⟩ <;> simp only [procStep, if_pos hbt, hlk]
      · exact fun nr hm => hR nr hm
      · intro p hp
        rcases mem_alStore hp with rfl | hp2
        · rw [hconv]
          exact ⟨hne1, hng⟩
        · exact hBm p hp2.1
      · exact fun p hp => hIm p hp
  · by_cases hgen : (!ne.indexedExecutions.isEmpty &&
        isGeneratedNodeForBatchMode ne.nodeID (ne.parentNodeID.getD "")) = true
    · cases hlk : alLookup st.batchMap (ne.parentNodeID.getD "") with
      | some parentRes =>
        have hmem := alLookup_mem hlk
        have hpar := hBm _ hmem
        refine ⟨?_, ?_, ?_⟩ <;>
          simp only [procStep, if_neg hbt, if_pos hgen, hlk]
        · intro nr hmem2
          rcases List.mem_append.mp hmem2 with hm | hm
          · exact hR _ hm
          · have heq : nr = mergeBatchModeNodes parentRes (convertNodeExecution ne) := by
              simpa using hm
            rw [heq, mergeBatchModeNodes_nodeId]
            exact hpar
        · exact fun p hp => hBm p (mem_alRemove.mp hp).1
        · exact fun p hp => hIm p hp
      | none =>
        refine ⟨?_, ?_, ?_⟩ <;>
          simp only [procStep, if_neg hbt, if_pos hgen, hlk]
        · exact fun nr hm => hR nr hm
        · exact fun p hp => hBm p hp
        · intro p hp
          rcases mem_alStore hp with rfl | hp2
          · by_cases hg : ne.nodeID = g
            · left
              rw [(hne2 hg).2.1]
              rfl
            · right
              rw [hconv]
              exact ⟨hne1, hg⟩
          · exact hIm p hp2.1
    · refine ⟨?_, ?_, ?_⟩ <;>
        simp only [procStep, if_neg hbt, if_neg hgen]
      · intro nr hmem2
        rcases List.mem_append.mp hmem2 with hm | hm
        · exact hR _ hm
        · have heq : nr = convertNodeExecution ne := by simpa using hm
          have hg : ne.nodeID ≠ g := by
            intro hgid
            obtain ⟨_, hpid, hind, hgenOk⟩ := hne2 hgid
            apply hgen
            rw [Bool.and_eq_true]
            constructor
            · simpa using hind
            · rw [hgid, hpid]
              exact hgenOk
          rw [heq, hconv]
          exact ⟨hne1, hg⟩
      · exact fun p hp => hBm p hp
      · exact fun p hp => hIm p hp

theorem foldl_absentInv {B g : String} (L : List NodeExecution)
    (hL : ∀ ne ∈ L, NoShellHalf B g ne) {st : ProcState}
    (hinv : AbsentInv B g st) : AbsentInv B g (L.foldl procStep st) := by
  induction L generalizing st with
  | nil => exact hinv
  | cons ne rest ih =>
    rw [List.foldl_cons]
    exact ih (fun x hx => hL x (List.mem_cons_of_mem _ hx))
      (procStep_absentInv (hL ne (List.mem_cons_self _ _)) hinv)

theorem getD_mem_or_default {α : Type} (l : List α) (i : Nat) (d : α) :
    l.getD i d ∈ l ∨ l.getD i d = d := by
  induction l generalizing i with
  | nil => right; rfl
  | cons a rest ih =>
    cases i with
    | zero => left; exact List.mem_cons_self _ _
    | succ j =>
      rcases ih j with h | h
      · left
        exact List.mem_cons_of_mem _ h
      · right
        exact h

theorem applyFailReason_nodeIds {B g : String} {wfFail : Bool}
    {failReason : Option String} {st : ProcState}
    (hB0 : B ≠ "") (hg0 : g ≠ "")
    (hBexit : B ≠ exitNodeKey) (hgexit : g ≠ exitNodeKey)
    (hR : ∀ nr ∈ st.results, nr.nodeId ≠ B ∧ nr.nodeId ≠ g) :
    ∀ nr ∈ applyFailReason wfFail failReason st, nr.nodeId ≠ B ∧ nr.nodeId ≠ g := by
  intro nr hm
  rw [applyFailReason.eq_def] at hm
  split at hm
  · split at hm
    · exact hR nr hm
    · rename_i reason
      split at hm
      · rename_i i hidx
        rcases List.mem_or_eq_of_mem_set hm with hm2 | rfl
        · exact hR nr hm2
        · rw [setNodeResultError_nodeId]
          rcases getD_mem_or_default st.results i defaultNodeResult with h | h
          · exact hR _ h
          · rw [h]
            exact ⟨fun he => hB0 he.symm, fun he => hg0 he.symm⟩
      · exact hR nr hm
      · split at hm
        · rename_i hone
          rcases hsplit : st.results with _ | ⟨first, rest⟩
          · rw [hsplit] at hm
            simp at hm
          · rw [hsplit] at hm
            rcases List.mem_cons.mp hm with rfl | hm2
            · rw [setNodeResultError_nodeId]
              exact hR first (hsplit ▸ List.mem_cons_self _ _)
            · exact hR nr (hsplit ▸ List.mem_cons_of_mem _ hm2)
        · rcases List.mem_append.mp hm with hm2 | hm2
          · exact hR nr hm2
          · have heq : nr = syntheticEndNodeResult reason := by simpa using hm2
            rw [heq]
            exact ⟨fun he => hBexit he.symm, fun he => hgexit he.symm⟩
  · exact hR nr hm

theorem appendLeftovers_results (rs : List NodeResult) (n : Nat)
    (m : List (String × NodeResult)) :
    (appendLeftovers rs n m).1 = rs ++ m.map Prod.snd := by
  induction m generalizing rs n with
  | nil => simp [appendLeftovers]
  | cons p rest ih =>
    rw [appendLeftovers, List.foldl_cons]
    rw [show (List.foldl _ _ rest : List NodeResult × Nat) =
      appendLeftovers (rs ++ [p.2])
        (n + (if p.2.nodeStatus = NodeStatus.success then 1 else 0)) rest from rfl]
    rw [ih]
    simp

/-- The NodeResults of a GetProcess response, spelled out: the loop's
results after the fail-reason block, followed by the leftover cached
parent shells. -/
theorem getProcessData_nodeResults (ic : NodeType → String)
    (wf : WorkflowExecutionRec) :
    (getProcessData ic wf).nodeResults =
      applyFailReason
        (decide ((if wf.status = WorkflowStatus.interrupted then
          WorkflowStatus.running else wf.status) = WorkflowStatus.failed))
        wf.failReason (wf.nodeExecutions.foldl procStep procInit) ++
      (wf.nodeExecutions.foldl procStep procInit).batchMap.map Prod.snd := by
  rw [getProcessData]
  exact appendLeftovers_results _ _ _

/-- alLookup misses are stable under alRemove. -/
theorem alLookup_alRemove_none {α : Type} {m : List (String × α)} {k k2 : String}
    (h : alLookup m k2 = none) : alLookup (alRemove m k) k2 = none := by
  by_cases he : k2 = k
  · rw [he]
    exact alLookup_alRemove_self m k
  · rw [alLookup_alRemove_ne m he]
    exact h

/-- The record-level hypothesis that `ne` is not a generated inner record
for batch node `B`. -/
def NoInnerHalf (B : String) (ne : NodeExecution) : Prop :=
  ne.parentNodeID.getD "" = B →
    ne.indexedExecutions = [] ∨ isGeneratedNodeForBatchMode ne.nodeID B = false

/-- No cached inner payload sits under key `B`. -/
def InnerFree (B : String) (st : ProcState) : Prop :=
  alLookup st.innerMap B = none

/-- A parent shell for `B` is cached in batchNodeID2NodeResult. -/
def ShellCached (B : String) (st : ProcState) : Prop :=
  ∃ v, alLookup st.batchMap B = some v ∧ v.nodeId = B

theorem procStep_genKey_ne {B : String} {ne : NodeExecution}
    (h2 : NoInnerHalf B ne)
    (hgen : (!ne.indexedExecutions.isEmpty &&
      isGeneratedNodeForBatchMode ne.nodeID (ne.parentNodeID.getD "")) = true) :
    ne.parentNodeID.getD "" ≠ B := by
  intro hkey
  rw [Bool.and_eq_true] at hgen
  rcases h2 hkey with hind | hgf
  · rw [hind] at hgen
    simp at hgen
  · rw [hkey] at hgen
    rw [hgf] at hgen
    simp at hgen

theorem procStep_innerFree {B : String} {st : ProcState} {ne : NodeExecution}
    (h2 : NoInnerHalf B ne) (hK : InnerFree B st) :
    InnerFree B (procStep st ne) := by
  by_cases hbt : ne.nodeType = NodeType.batch
  · cases hlk : alLookup st.innerMap ne.nodeID with
    | some inner =>
      show alLookup (procStep st ne).innerMap B = none
      simp only [procStep, if_pos hbt, hlk]
      exact alLookup_alRemove_none hK
    | none =>
      show alLookup (procStep st ne).innerMap B = none
      simp only [procStep, if_pos hbt, hlk]
      exact hK
  · by_cases hgen : (!ne.indexedExecutions.isEmpty &&
        isGeneratedNodeForBatchMode ne.nodeID (ne.parentNodeID.getD "")) = true
    · have hkey := procStep_genKey_ne h2 hgen
      cases hlk : alLookup st.batchMap (ne.parentNodeID.getD "") with
      | some parentRes =>
        show alLookup (procStep st ne).innerMap B = none
        simp only [procStep, if_neg hbt, if_pos hgen, hlk]
        exact hK
      | none =>
        show alLookup (procStep st ne).innerMap B = none
        simp only [procStep, if_neg hbt, if_pos hgen, hlk]
        rw [alLookup_alStore_ne _ _ (fun he => hkey he.symm)]
        exact hK
    · show alLookup (procStep st ne).innerMap B = none
      simp only [procStep, if_neg hbt, if_neg hgen]
      exact hK

theorem procStep_shell_establishes {B : String} {st : ProcState}
    {ne : NodeExecution} (hbt : ne.nodeType = NodeType.batch)
    (hid : ne.nodeID = B) (hK : InnerFree B st) :
    ShellCached B (procStep st ne) := by
  have hconv : (convertNodeExecution ne).nodeId = ne.nodeID :=
    convertNodeExecution_nodeId ne
  have hlk : alLookup st.innerMap ne.nodeID = none := by
    rw [hid]
    exact hK
  refine ⟨convertNodeExecution ne, ?_, by rw [hconv, hid]⟩
  simp only [procStep, if_pos hbt, hlk]
  rw [← hid]
  exact alLookup_alStore_self _ _ _

theorem procStep_shellCached {B : String} {st : ProcState} {ne : NodeExecution}
    (h2 : NoInnerHalf B ne)
    (hJ : ShellCached B st) (hK : InnerFree B st) :
    ShellCached B (procStep st ne) := by
  by_cases hbt : ne.nodeType = NodeType.batch
  · by_cases hid : ne.nodeID = B
    · exact procStep_shell_establishes hbt hid hK
    · obtain ⟨v, hv, hvid⟩ := hJ
      cases hlk : alLookup st.innerMap ne.nodeID with
      | some inner =>
        refine ⟨v, ?_, hvid⟩
        simp only [procStep, if_pos hbt, hlk]
        exact hv
      | none =>
        refine ⟨v, ?_, hvid⟩
        simp only [procStep, if_pos hbt, hlk]
        rw [alLookup_alStore_ne _ _ (fun he => hid he.symm)]
        exact hv
  · by_cases hgen : (!ne.indexedExecutions.isEmpty &&
        isGeneratedNodeForBatchMode ne.nodeID (ne.parentNodeID.getD "")) = true
    · have hkey := procStep_genKey_ne h2 hgen
      obtain ⟨v, hv, hvid⟩ := hJ
      cases hlk : alLookup st.batchMap (ne.parentNodeID.getD "") with
      | some parentRes =>
        refine ⟨v, ?_, hvid⟩
        simp only [procStep, if_neg hbt, if_pos hgen, hlk]
        rw [alLookup_alRemove_ne _ (fun he => hkey he.symm)]
        exact hv
      | none =>
        refine ⟨v, ?_, hvid⟩
        simp only [procStep, if_neg hbt, if_pos hgen, hlk]
        exact hv
    · obtain ⟨v, hv, hvid⟩ := hJ
      refine ⟨v, ?_, hvid⟩
      simp only [procStep, if_neg hbt, if_neg hgen]
      exact hv

theorem foldl_innerFree {B : String} (L : List NodeExecution)
    (hL : ∀ ne ∈ L, NoInnerHalf B ne) {st : ProcState} (hK : InnerFree B st) :
    InnerFree B (L.foldl procStep st) := by
  induction L generalizing st with
  | nil => exact hK
  | cons ne rest ih =>
    rw [List.foldl_cons]
    exact ih (fun x hx => hL x (List.mem_cons_of_mem _ hx))
      (procStep_innerFree (hL ne (List.mem_cons_self _ _)) hK)

theorem foldl_shellCached {B : String} (L : List NodeExecution)
    (hL2 : ∀ ne ∈ L, NoInnerHalf B ne) {st : ProcState}
    (hJ : ShellCached B st) (hK : InnerFree B st) :
    ShellCached B (L.foldl procStep st) := by
  induction L generalizing st with
  | nil => exact hJ
  | cons ne rest ih =>
    rw [List.foldl_cons]
    exact ih (fun x hx => hL2 x (List.mem_cons_of_mem _ hx))
      (procStep_shellCached (hL2 ne (List.mem_cons_self _ _)) hJ hK)
      (procStep_innerFree (hL2 ne (List.mem_cons_self _ _)) hK)

/-- Claim C2 (amended): in GetProcess, a batch-control node for which only
the inner payload half is present among the NodeExecutions (no record at
all carries the control node's id, and its id only occurs through proper
generated-inner records) appears in no NodeResult, neither under the
control node's id nor under the generated node's id; whereas a
batch-control node whose parent-shell half is present while no generated
inner record references it does appear: the cached shell is appended to
NodeResults after the loop. -/
theorem getProcess_single_half_visibility :
    (∀ (ic : NodeType → String) (wf : WorkflowExecutionRec) (B g : String),
      B ≠ "" → g ≠ "" → B ≠ exitNodeKey → g ≠ exitNodeKey →
      (∀ ne ∈ wf.nodeExecutions, NoShellHalf B g ne) →
      ∀ nr ∈ (getProcessData ic wf).nodeResults, nr.nodeId ≠ B ∧ nr.nodeId ≠ g) ∧
    (∀ (ic : NodeType → String) (wf : WorkflowExecutionRec) (B : String),
      (∃ ne ∈ wf.nodeExecutions, ne.nodeType = NodeType.batch ∧ ne.nodeID = B) →
      (∀ ne ∈ wf.nodeExecutions, NoInnerHalf B ne) →
      ∃ nr ∈ (getProcessData ic wf).nodeResults, nr.nodeId = B) := by
  constructor
  · intro ic wf B g hB0 hg0 hBexit hgexit hall nr hm
    have hinv : AbsentInv B g (wf.nodeExecutions.foldl procStep procInit) :=
      foldl_absentInv _ hall
        ⟨by simp [procInit], by simp [procInit], by simp [procInit]⟩
    obtain ⟨hR, hBm, _⟩ := hinv
    rw [getProcessData_nodeResults] at hm
    rcases List.mem_append.mp hm with hm2 | hm2
    · exact applyFailReason_nodeIds hB0 hg0 hBexit hgexit hR nr hm2
    · obtain ⟨p, hp, hpe⟩ := List.mem_map.mp hm2
      rw [← hpe]
      exact hBm p hp
  · intro ic wf B hBmem hnogen
    obtain ⟨shell, hshmem, hshbt, hshid⟩ := hBmem
    obtain ⟨l1, l2, hsplit⟩ := List.append_of_mem hshmem
    have hl1 : ∀ ne ∈ l1, NoInnerHalf B ne := by
      intro x hx
      exact hnogen x (by rw [hsplit]; exact List.mem_append_left _ hx)
    have hl2two : ∀ ne ∈ l2, NoInnerHalf B ne := by
      intro x hx
      refine hnogen x ?_
      rw [hsplit]
      exact List.mem_append_right _ (List.mem_cons_of_mem _ hx)
    have hK1 : InnerFree B (l1.foldl procStep procInit) :=
      foldl_innerFree l1 hl1 (by simp [InnerFree, procInit, alLookup])
    have hshinner : NoInnerHalf B shell := by
      refine hnogen shell ?_
      rw [hsplit]
      exact List.mem_append_right _ (List.mem_cons_self _ _)
    have hJ2 : ShellCached B (procStep (l1.foldl procStep procInit) shell) :=
      procStep_shell_establishes hshbt hshid hK1
    have hK2 : InnerFree B (procStep (l1.foldl procStep procInit) shell) :=
      procStep_innerFree hshinner hK1
    have hJfin : ShellCached B (wf.nodeExecutions.foldl procStep procInit) := by
      rw [hsplit, List.foldl_append, List.foldl_cons]
      exact foldl_shellCached l2 hl2two hJ2 hK2
    obtain ⟨v, hv, hvid⟩ := hJfin
    refine ⟨v, ?_, hvid⟩
    rw [getProcessData_nodeResults]
    refine List.mem_append_right _ ?_
    exact List.mem_map.mpr ⟨(B, v), alLookup_mem hv, rfl⟩

theorem getProcess_single_half_visibility_witness :
    (∀ nr ∈ (getProcessData exIconCache exWfInnerOnly).nodeResults,
      nr.nodeId ≠ "n1" ∧ nr.nodeId ≠ "n1_inner") ∧
    (∃ nr ∈ (getProcessData exIconCache exWfShellOnly).nodeResults,
      nr.nodeId = "n1") := by
  constructor
  · refine getProcess_single_half_visibility.1 exIconCache exWfInnerOnly
      "n1" "n1_inner" (by decide) (by decide) (by decide) (by decide) ?_
    intro ne hne
    have hlist : exWfInnerOnly.nodeExecutions = [exGenInner] := rfl
    rw [hlist] at hne
    rw [List.mem_singleton.mp hne]
    refine ⟨by decide, fun _ => ⟨by decide, rfl, ?_, by decide⟩⟩
    exact List.cons_ne_nil _ _
  · refine getProcess_single_half_visibility.2 exIconCache exWfShellOnly "n1"
      ⟨exShell, ?_, by decide, rfl⟩ ?_
    · exact List.mem_cons_self _ _
    · intro ne hne
      have hlist : exWfShellOnly.nodeExecutions = [exShell] := rfl
      rw [hlist] at hne
      rw [List.mem_singleton.mp hne]
      intro h
      exact absurd h (by decide)

/-! ## Claim theorems: stream converter (C7, C8) -/

theorem convStep_foreign_skip (wid : Int) (s : ConvState) (m : MessageRec)
    (hgt : s.executeID > 0) (hne : msgExecID m ≠ s.executeID) :
    convStep wid s m = (s, .skip) := by
  obtain ⟨sp, body⟩ := m
  cases body with
  | state sm iev =>
    have hcond : s.executeID > 0 ∧ s.executeID ≠ sm.executeID :=
      ⟨hgt, fun he => hne he.symm⟩
    simp only [convStep, if_pos hcond]
  | data dm =>
    by_cases hk : dm.kind ≠ DataKind.answer
    · simp only [convStep, if_pos hk]
    · have hcond : s.executeID > 0 ∧ s.executeID ≠ dm.executeID :=
        ⟨hgt, fun he => hne he.symm⟩
      simp only [convStep, if_neg hk, if_pos hcond]

theorem convStep_own_executeID (wid : Int) (s : ConvState) (m : MessageRec)
    (hown : msgExecID m = s.executeID) :
    (convStep wid s m).1.executeID = s.executeID := by
  obtain ⟨sp, body⟩ := m
  cases body with
  | state sm iev =>
    have he : sm.executeID = s.executeID := hown
    simp only [convStep]
    split
    · rfl
    · split
      · rfl
      · split <;> rfl
      · split <;> rfl
      · split
        · rfl
        · split <;> rfl
      · exact he
  | data dm =>
    simp only [convStep]
    split
    · rfl
    · split <;> rfl

theorem convRun_cons_emit {wid : Int} {s s2 : ConvState} {m : MessageRec}
    {r : StreamResp} (rest : List MessageRec)
    (hstep : convStep wid s m = (s2, .emit r)) :
    convRun wid s (m :: rest) =
      (r :: (convRun wid s2 rest).1, (convRun wid s2 rest).2) := by
  rw [convRun, hstep]

theorem convRun_cons_skip {wid : Int} {s s2 : ConvState} {m : MessageRec}
    (rest : List MessageRec) (hstep : convStep wid s m = (s2, .skip)) :
    convRun wid s (m :: rest) = convRun wid s2 rest := by
  rw [convRun, hstep]

theorem convRun_cons_panic {wid : Int} {s s2 : ConvState} {m : MessageRec}
    {pm : String} (rest : List MessageRec)
    (hstep : convStep wid s m = (s2, .goPanic pm)) :
    convRun wid s (m :: rest) = ([], .panicked pm) := by
  rw [convRun, hstep]

/-- Claim C7: the first Running StateMessage establishes the stream's root
execution id and space id, and once a root execution id e > 0 is
established, every state or data message whose ExecuteID differs from e is
silently dropped — it produces no client event, leaves the converter state
untouched, and the whole converted stream equals the conversion of the
sequence with all foreign-execution messages removed. -/
theorem convertStreamRunEvent_root_filtering :
    (∀ (wid : Int) (s : ConvState) (sm : StateMessageRec)
        (iev : Option InterruptEventRec) (sp : Int),
      sm.status = WorkflowStatus.running → s.executeID = 0 →
      convStep wid s ⟨sp, .state sm iev⟩ =
        ({ s with executeID := sm.executeID, spaceID := sp }, .skip)) ∧
    (∀ (wid : Int) (s : ConvState) (m : MessageRec),
      s.executeID > 0 → msgExecID m ≠ s.executeID →
      convStep wid s m = (s, .skip)) ∧
    (∀ (wid : Int) (s : ConvState) (e : Int) (msgs : List MessageRec),
      s.executeID = e → e > 0 →
      convRun wid s msgs =
        convRun wid s (msgs.filter (fun m => msgExecID m = e))) := by
  refine ⟨?_, convStep_foreign_skip, ?_⟩
  · intro wid s sm iev sp hst h0
    have hcond : ¬ (s.executeID > 0 ∧ s.executeID ≠ sm.executeID) := by
      rw [h0]
      rintro ⟨hgt, _⟩
      exact lt_irrefl 0 hgt
    simp only [convStep, if_neg hcond, hst]
  · intro wid s e msgs hse hgt
    induction msgs generalizing s with
    | nil => rfl
    | cons m rest ih =>
      by_cases hown : msgExecID m = e
      · have hkeep : (m :: rest).filter (fun m => decide (msgExecID m = e)) =
            m :: rest.filter (fun m => decide (msgExecID m = e)) := by
          rw [List.filter_cons, if_pos (by simpa using hown)]
        rw [hkeep]
        have hpres : (convStep wid s m).1.executeID = e := by
          rw [convStep_own_executeID wid s m (by rw [hown, hse])]
          exact hse
        cases hstep : convStep wid s m with
        | mk s2 out =>
          have hs2 : s2.executeID = e := by
            rw [← hpres, hstep]
          cases out with
          | emit r =>
            rw [convRun_cons_emit rest hstep,
              convRun_cons_emit (rest.filter (fun m => decide (msgExecID m = e))) hstep,
              ih s2 hs2]
          | skip =>
            rw [convRun_cons_skip rest hstep,
              convRun_cons_skip (rest.filter (fun m => decide (msgExecID m = e))) hstep]
            exact ih s2 hs2
          | goPanic pm =>
            rw [convRun_cons_panic rest hstep,
              convRun_cons_panic (rest.filter (fun m => decide (msgExecID m = e))) hstep]
      · have hdrop : (m :: rest).filter (fun m => decide (msgExecID m = e)) =
            rest.filter (fun m => decide (msgExecID m = e)) := by
          rw [List.filter_cons, if_neg (by simpa using hown)]
        rw [hdrop]
        rw [convRun_cons_skip rest
          (convStep_foreign_skip wid s m (by rw [hse]; exact hgt)
            (by rw [hse]; exact hown))]
        exact ih s hse

/-- A converter state with root execution 5 in space 2 established. -/
def exConvRoot : ConvState :=
  { messageID := 0, executeID := 5, spaceID := 2, nodeSeq := fun _ => 0 }

/-- A data message from a nested (foreign) execution 6. -/
def exForeignDataMsg : DataMessageRec :=
  { executeID := 6, kind := DataKind.answer, nodeTitle := "t",
    content := "c", last := false, nodeType := NodeType.llm, nodeID := "nd",
    usage := none }

/-- The foreign data message wrapped as an entity.Message. -/
def exForeignMsg : MessageRec := ⟨2, .data exForeignDataMsg⟩

/-- The Running state message establishing execution 5 in space 2. -/
def exRunningState : StateMessageRec :=
  { executeID := 5, status := WorkflowStatus.running, lastError := none }

/-- An Answer data message from the root execution 5. -/
def exAnswerDataMsg : DataMessageRec :=
  { executeID := 5, kind := DataKind.answer, nodeTitle := "t",
    content := "c", last := true, nodeType := NodeType.llm, nodeID := "nd",
    usage := some { inputTokens := 3, outputTokens := 4 } }

/-- A FunctionCall data message from the root execution 5. -/
def exFunctionCallDataMsg : DataMessageRec :=
  { executeID := 5, kind := DataKind.functionCall, nodeTitle := "t",
    content := "c", last := true, nodeType := NodeType.llm, nodeID := "nd",
    usage := none }

theorem convertStreamRunEvent_root_filtering_witness :
    (convStep 7 convInit ⟨2, .state exRunningState none⟩ =
      ({ convInit with executeID := 5, spaceID := 2 }, .skip)) ∧
    (convStep 7 exConvRoot exForeignMsg = (exConvRoot, .skip)) ∧
    (convRun 7 exConvRoot [exForeignMsg] =
      convRun 7 exConvRoot
        ([exForeignMsg].filter (fun m => msgExecID m = 5))) := by
  refine ⟨?_, ?_, ?_⟩
  · exact convertStreamRunEvent_root_filtering.1 7 convInit _ none 2 rfl rfl
  · exact convertStreamRunEvent_root_filtering.2.1 7 exConvRoot exForeignMsg
      (by decide) (by decide)
  · exact convertStreamRunEvent_root_filtering.2.2 7 exConvRoot 5 [exForeignMsg]
      rfl (by decide)

/-- Claim C8: an Answer data message from the root execution produces
exactly one Message event carrying the node title, content, node-finish
flag and summed token usage, with a per-node sequence number read from the
per-node counter (which starts at 0 for every node in a fresh stream) and
incremented afterwards for that node only; FunctionCall and ToolResponse
data messages never produce an event and leave the converter state
untouched. -/
theorem convertStreamRunEvent_answer_events :
    (∀ (wid : Int) (s : ConvState) (dm : DataMessageRec) (sp : Int),
      dm.kind = DataKind.answer →
      (s.executeID > 0 → dm.executeID = s.executeID) →
      convStep wid s ⟨sp, .data dm⟩ =
        ({ s with
            messageID := s.messageID + 1,
            nodeSeq := fun x =>
              if x = dm.nodeID then s.nodeSeq dm.nodeID + 1 else s.nodeSeq x },
         .emit { baseResp (goItoaNat s.messageID) "Message" with
                   nodeTitle := some dm.nodeTitle,
                   content := some dm.content,
                   contentType := some "text",
                   nodeIsFinish := some dm.last,
                   nodeType := some (displayKey dm.nodeType),
                   nodeID := some dm.nodeID,
                   token := dm.usage.map (fun u => u.inputTokens + u.outputTokens),
                   nodeSeqID := some (goItoaNat (s.nodeSeq dm.nodeID)) })) ∧
    (∀ (wid : Int) (s : ConvState) (dm : DataMessageRec) (sp : Int),
      dm.kind = DataKind.functionCall ∨ dm.kind = DataKind.toolResponse →
      convStep wid s ⟨sp, .data dm⟩ = (s, .skip)) ∧
    (∀ x : String, convInit.nodeSeq x = 0) := by
  refine ⟨?_, ?_, fun _ => rfl⟩
  · intro wid s dm sp hk himp
    have h1 : ¬ dm.kind ≠ DataKind.answer := fun hne => hne hk
    have h2 : ¬ (s.executeID > 0 ∧ s.executeID ≠ dm.executeID) := by
      rintro ⟨hgt, hne⟩
      exact hne (himp hgt).symm
    simp only [convStep, if_neg h1, if_neg h2]
  · intro wid s dm sp hk
    have h1 : dm.kind ≠ DataKind.answer := by
      rcases hk with hk | hk <;> rw [hk] <;> decide
    simp only [convStep, if_pos h1]

theorem convertStreamRunEvent_answer_events_witness :
    (convStep 7 exConvRoot ⟨2, .data exAnswerDataMsg⟩ =
      ({ exConvRoot with
          messageID := 1,
          nodeSeq := fun x => if x = "nd" then exConvRoot.nodeSeq "nd" + 1
            else exConvRoot.nodeSeq x },
       .emit { baseResp (goItoaNat 0) "Message" with
                 nodeTitle := some "t", content := some "c",
                 contentType := some "text", nodeIsFinish := some true,
                 nodeType := some (displayKey NodeType.llm),
                 nodeID := some "nd", token := some 7,
                 nodeSeqID := some (goItoaNat 0) })) ∧
    (convStep 7 exConvRoot ⟨2, .data exFunctionCallDataMsg⟩ =
      (exConvRoot, .skip)) ∧
    convInit.nodeSeq "nd" = 0 := by
  refine ⟨?_, ?_, ?_⟩
  · exact convertStreamRunEvent_answer_events.1 7 exConvRoot _ 2 rfl
      (fun _ => rfl)
  · exact convertStreamRunEvent_answer_events.2.1 7 exConvRoot _ 2 (Or.inl rfl)
  · exact convertStreamRunEvent_answer_events.2.2 "nd"

/-! ## Claim theorems: panic recovery boundary (C3) -/

/-- A valid published-workflow OpenAPI run request. -/
def exStreamReq : OpenAPIRunReq :=
  { workflowID := 5, parameters := ParamsField.absent, appID := none,
    projectID := none, botID := none, connectorID := none, isAsync := false }

/-- Metadata of published workflow 5 in space 3. -/
def exMeta : WfMeta := { id := 5, spaceID := 3, latestPublishedVersion := some "v1" }

/-- A Running state message for execution 7. -/
def exRunningMsg7 : MessageRec :=
  ⟨3, .state { executeID := 7, status := WorkflowStatus.running,
               lastError := none } none⟩

/-- A Failed state message for execution 7 whose LastError is not a typed
WorkflowError. -/
def exFailedUntypedMsg : MessageRec :=
  ⟨3, .state { executeID := 7, status := WorkflowStatus.failed,
               lastError := some (GoError.plainError "boom") } none⟩

/-- Stream-run collaborators delivering the two messages above. -/
def exStreamDeps : OpenAPIStreamRunDeps :=
  { userID := 1, apiConnectorID := 9, getMeta := .ok exMeta, spaceCheck := none,
    streamExecute := .ok [exRunningMsg7, exFailedUntypedMsg] }

/-- A Failed state message for the root execution 5 with an untyped
error. -/
def exFailedUntypedState : StateMessageRec :=
  { executeID := 5, status := WorkflowStatus.failed,
    lastError := some (GoError.plainError "boom") }

/-- Claim C3 (counterexample): OpenAPIStreamRun returns success at its
operation boundary, and the subsequent conversion of a Failed state
message with an untyped error panics to the stream consumer — the panic is
raised after the deferred recover of OpenAPIStreamRun has already run, so
it is not turned into an ErrWorkflowExecuteFail error. -/
theorem streamRun_converter_panic_reaches_consumer :
    openAPIStreamRun exStreamReq exStreamDeps =
      (.ok ([], .panicked "stream run last error is not a WorkflowError"),
       true) :=
  rfl

/-- Claim C3 (amended): a panic raised while the body of a public
operation runs is recovered by the deferred boundary and wrapped into the
operation's generic failure error carrying the root cause; but the events
of the stream returned by OpenAPIStreamRun/OpenAPIStreamResume are
converted lazily after the boundary has returned: a Failed/Cancelled
state message whose underlying error is not a typed WorkflowError makes
the converter panic to the stream consumer, and the operation's boundary
does not wrap that panic. -/
theorem operation_boundary_recovery_scope :
    (∀ (code : ErrnoCode) (msg : String),
      (recoverBoundary code (GoResult.panicked msg) :
        Except AppError (List StreamResp × StreamTerm)) =
        .error (.statusError code msg)) ∧
    (∀ (wid : Int) (s : ConvState) (sm : StateMessageRec)
        (iev : Option InterruptEventRec) (sp : Int),
      (s.executeID > 0 → sm.executeID = s.executeID) →
      (sm.status = WorkflowStatus.failed ∨ sm.status = WorkflowStatus.cancelled) →
      (∀ (c : Int) (emsg : String),
        sm.lastError ≠ some (GoError.workflowError c emsg)) →
      convStep wid s ⟨sp, .state sm iev⟩ =
        (s, .goPanic "stream run last error is not a WorkflowError")) ∧
    (∀ (req : OpenAPIRunReq) (deps : OpenAPIStreamRunDeps)
        (msgs : List MessageRec) (wid : Int) (b : Bool),
      openAPIStreamRunInner req deps = (.ok (msgs, wid), b) →
      (openAPIStreamRun req deps).1 = .ok (convRun wid convInit msgs)) := by
  refine ⟨fun code msg => rfl, ?_, ?_⟩
  · intro wid s sm iev sp himp hst huntyped
    have h2 : ¬ (s.executeID > 0 ∧ s.executeID ≠ sm.executeID) := by
      rintro ⟨hgt, hne⟩
      exact hne (himp hgt).symm
    rcases hst with hst | hst <;>
      simp only [convStep, if_neg h2, hst]
  · intro req deps msgs wid b hinner
    simp only [openAPIStreamRun, hinner, recoverBoundary]

theorem operation_boundary_recovery_scope_witness :
    ((recoverBoundary ErrnoCode.workflowExecuteFail (GoResult.panicked "pnc") :
        Except AppError (List StreamResp × StreamTerm)) =
      .error (.statusError ErrnoCode.workflowExecuteFail "pnc")) ∧
    (convStep 7 exConvRoot ⟨2, .state exFailedUntypedState none⟩ =
      (exConvRoot, .goPanic "stream run last error is not a WorkflowError")) ∧
    (openAPIStreamRun exStreamReq exStreamDeps).1 =
      .ok (convRun 5 convInit [exRunningMsg7, exFailedUntypedMsg]) := by
  refine ⟨?_, ?_, ?_⟩
  · exact operation_boundary_recovery_scope.1 ErrnoCode.workflowExecuteFail "pnc"
  · exact operation_boundary_recovery_scope.2.1 7 exConvRoot
      exFailedUntypedState none 2 (fun _ => rfl) (Or.inl rfl)
      (fun c emsg h => by simp [exFailedUntypedState] at h)
  · exact operation_boundary_recovery_scope.2.2 exStreamReq exStreamDeps
      [exRunningMsg7, exFailedUntypedMsg] 5 true rfl

/-! ## Claim theorems: synchronous interrupt rejection (C4) -/

/-- Claim C4: a synchronous OpenAPIRun (IsAsync unset or false) whose
domain SyncExecute ends with an execution in Interrupted status returns
the typed InterruptNotSupported error and no run response object
(workflow.go:1745-1747). -/
theorem openAPIRun_sync_interrupted_errors
    (req : OpenAPIRunReq) (deps : OpenAPIRunDeps) (meta : WfMeta)
    (aid agid : Option Int) (wfExe : SyncExecResult) (tPlan : TerminatePlan)
    (hv : openAPIRunValidate req deps.getMeta deps.spaceCheck = .ok (meta, aid, agid))
    (hasync : req.isAsync = false)
    (hsync : deps.syncExecute = .ok (wfExe, tPlan))
    (hint : wfExe.status = WorkflowStatus.interrupted) :
    openAPIRun req deps =
      (.error (.statusError ErrnoCode.interruptNotSupported ""), true) := by
  simp only [openAPIRun, openAPIRunInner, hv, hasync, hsync, hint,
    recoverBoundary, wrapIfNeeded, if_pos, if_false, Bool.false_eq_true,
    if_true]

/-- The execution summary of an interrupted synchronous run. -/
def exSyncInterrupted : SyncExecResult :=
  { id := 11, spaceID := 3, status := WorkflowStatus.interrupted,
    output := none, tokenInfo := none }

/-- OpenAPIRun collaborators whose SyncExecute parks at Interrupted. -/
def exRunDeps : OpenAPIRunDeps :=
  { userID := 1, apiConnectorID := 9, getMeta := .ok exMeta, spaceCheck := none,
    asyncExecute := .ok 0, syncExecute := .ok (exSyncInterrupted, .useAnswerContent) }

theorem openAPIRun_sync_interrupted_errors_witness :
    openAPIRun exStreamReq exRunDeps =
      (.error (.statusError ErrnoCode.interruptNotSupported ""), true) :=
  openAPIRun_sync_interrupted_errors exStreamReq exRunDeps exMeta none none
    exSyncInterrupted TerminatePlan.useAnswerContent rfl rfl rfl rfl

/-! ## Claim theorems: dual execution context rejected (C5) -/

/-- Claim C5: every execute request (TestRun, NodeDebug, OpenAPIRun,
OpenAPIStreamRun) in which both the project id and the bot id are set
fails with the validation error and never invokes the domain
AsyncExecute/AsyncExecuteNode/SyncExecute/StreamExecute (the Bool
component of each operation model records whether the domain execute was
invoked). -/
theorem execute_requests_reject_dual_context :
    (∀ (req : TestRunReq) (deps : TestRunDeps),
      req.projectID.isSome = true → req.botID.isSome = true →
      deps.spaceCheck = none →
      testRun req deps = (.error bothSetValidationError, false)) ∧
    (∀ (req : NodeDebugReq) (deps : NodeDebugDeps),
      req.projectID.isSome = true → req.botID.isSome = true →
      deps.spaceCheck = none →
      nodeDebug req deps = (.error bothSetValidationError, false)) ∧
    (∀ (req : OpenAPIRunReq) (deps : OpenAPIRunDeps),
      deps.spaceCheck = none → req.parameters ≠ ParamsField.invalid →
      (∃ meta, deps.getMeta = .ok meta ∧ meta.latestPublishedVersion.isSome = true) →
      (req.appID.isSome = true ∨ req.projectID.isSome = true) →
      req.botID.isSome = true →
      openAPIRun req deps = (.error bothSetValidationError, false)) ∧
    (∀ (req : OpenAPIRunReq) (deps : OpenAPIStreamRunDeps),
      deps.spaceCheck = none → req.parameters ≠ ParamsField.invalid →
      (∃ meta, deps.getMeta = .ok meta ∧ meta.latestPublishedVersion.isSome = true) →
      (req.appID.isSome = true ∨ req.projectID.isSome = true) →
      req.botID.isSome = true →
      openAPIStreamRun req deps = (.error bothSetValidationError, false)) := by
  have hval : ∀ (req : OpenAPIRunReq) (gm : Except AppError WfMeta),
      req.parameters ≠ ParamsField.invalid →
      (∃ meta, gm = .ok meta ∧ meta.latestPublishedVersion.isSome = true) →
      (req.appID.isSome = true ∨ req.projectID.isSome = true) →
      req.botID.isSome = true →
      openAPIRunValidate req gm none =
        .fail (.goError "project_id and bot_id cannot be set at the same time") := by
    intro req gm hpar ⟨meta, hgm, hpub⟩ hor hbot
    have happ : (if req.appID.isSome then req.appID else req.projectID).isSome = true := by
      by_cases ha : req.appID.isSome = true
      · rw [if_pos ha]
        exact ha
      · rw [if_neg ha]
        rcases hor with h | h
        · exact absurd h ha
        · exact h
    have hnp : ¬ meta.latestPublishedVersion.isNone = true := by
      rw [Option.isNone_iff_eq_none]
      intro hn
      rw [hn] at hpub
      exact absurd hpub (by decide)
    rcases hpf : req.parameters with _ | _ | m
    · simp only [openAPIRunValidate, hpf, hgm, if_neg hnp, happ, hbot,
        Bool.and_self, if_pos]
    · exact absurd hpf hpar
    · simp only [openAPIRunValidate, hpf, hgm, if_neg hnp, happ, hbot,
        Bool.and_self, if_pos]
  refine ⟨?_, ?_, ?_, ?_⟩
  · intro req deps hp hb hsp
    simp only [testRun, testRunInner, hsp, hp, hb, Bool.and_self, if_pos,
      recoverBoundary, wrapIfNeeded, bothSetValidationError]
  · intro req deps hp hb hsp
    simp only [nodeDebug, nodeDebugInner, hsp, hp, hb, Bool.and_self, if_pos,
      recoverBoundary, wrapIfNeeded, bothSetValidationError]
  · intro req deps hsp hpar hmeta hor hbot
    simp only [openAPIRun, openAPIRunInner, hsp,
      hval req deps.getMeta hpar hmeta hor hbot,
      recoverBoundary, wrapIfNeeded, bothSetValidationError]
  · intro req deps hsp hpar hmeta hor hbot
    simp only [openAPIStreamRun, openAPIStreamRunInner, hsp,
      hval req deps.getMeta hpar hmeta hor hbot,
      recoverBoundary, wrapIfNeeded, bothSetValidationError]

/-- A TestRun request with both project id and bot id set. -/
def exDualTestReq : TestRunReq :=
  { workflowID := 1, spaceID := 2, projectID := some 3, botID := some 4,
    commitID := "", input := [] }

/-- TestRun collaborators with a passing space check. -/
def exTestDeps : TestRunDeps := { spaceCheck := none, asyncExecute := .ok 77 }

/-- A NodeDebug request with both project id and bot id set. -/
def exDualNodeReq : NodeDebugReq :=
  { workflowID := 1, spaceID := 2, nodeID := "n7", projectID := some 3,
    botID := some 4, input := [], batch := [], setting := [] }

/-- NodeDebug collaborators with a passing space check. -/
def exNodeDeps : NodeDebugDeps :=
  { spaceCheck := none, asyncExecuteNode := .ok 78 }

/-- An OpenAPI run request with both project id and bot id set. -/
def exDualRunReq : OpenAPIRunReq :=
  { workflowID := 5, parameters := ParamsField.absent, appID := none,
    projectID := some 3, botID := some 4, connectorID := none, isAsync := false }

theorem execute_requests_reject_dual_context_witness :
    (testRun exDualTestReq exTestDeps = (.error bothSetValidationError, false)) ∧
    (nodeDebug exDualNodeReq exNodeDeps = (.error bothSetValidationError, false)) ∧
    (openAPIRun exDualRunReq exRunDeps = (.error bothSetValidationError, false)) ∧
    (openAPIStreamRun exDualRunReq exStreamDeps =
      (.error bothSetValidationError, false)) := by
  refine ⟨?_, ?_, ?_, ?_⟩
  · exact execute_requests_reject_dual_context.1 exDualTestReq exTestDeps
      rfl rfl rfl
  · exact execute_requests_reject_dual_context.2.1 exDualNodeReq exNodeDeps
      rfl rfl rfl
  · exact execute_requests_reject_dual_context.2.2.1 exDualRunReq exRunDeps
      rfl (by decide) ⟨exMeta, rfl, rfl⟩ (Or.inr rfl) rfl
  · exact execute_requests_reject_dual_context.2.2.2 exDualRunReq exStreamDeps
      rfl (by decide) ⟨exMeta, rfl, rfl⟩ (Or.inr rfl) rfl

/-! ## Claim theorems: interrupted executions in GetProcess (C10) -/

theorem nodeEventOfInterrupt_nonLLM (ic : NodeType → String)
    (ie : InterruptEventRec) (h : ie.eventType ≠ interruptEventLLMType) :
    nodeEventOfInterrupt ic ie =
      { id := goItoaInt ie.id, nodeID := ie.nodeKey, nodeTitle := ie.nodeTitle,
        nodeIcon := ic ie.nodeType, data := ie.interruptData,
        eventType := ie.eventType, schemaNodeID := ie.nodeKey } := by
  simp only [nodeEventOfInterrupt, if_neg h]

theorem nodeEventOfInterrupt_llm (ic : NodeType → String)
    (ie : InterruptEventRec) (t : ToolInterruptEvent)
    (h : ie.eventType = interruptEventLLMType)
    (ht : ie.toolInterruptEvent = some t) :
    nodeEventOfInterrupt ic ie =
      { id := goItoaInt ie.id, nodeID := t.nodeKey, nodeTitle := t.nodeTitle,
        nodeIcon := ic t.nodeType, data := t.interruptData,
        eventType := t.eventType, schemaNodeID := t.nodeKey } := by
  simp only [nodeEventOfInterrupt, if_pos h, ht, Option.getD]

/-- Claim C10: for an execution stored as Interrupted, GetProcess reports
ExecuteStatus Running (the Interrupted value is never surfaced), and each
pending InterruptEvent is surfaced as a NodeEvent carrying the event id,
node key, node title, the icon resolved from the node icon cache, the
event type and the interrupt data — with LLM tool interrupts unwrapped to
their embedded tool event first. -/
theorem getProcess_interrupted_reports_running_and_events
    (ic : NodeType → String) (wf : WorkflowExecutionRec)
    (hint : wf.status = WorkflowStatus.interrupted) :
    (getProcessData ic wf).executeStatus = WorkflowStatus.running ∧
    (getProcessData ic wf).nodeEvents.length = wf.interruptEvents.length ∧
    (∀ (k : Nat) (ie : InterruptEventRec),
      wf.interruptEvents.get? k = some ie →
      (ie.eventType ≠ interruptEventLLMType →
        (getProcessData ic wf).nodeEvents.get? k = some
          { id := goItoaInt ie.id, nodeID := ie.nodeKey,
            nodeTitle := ie.nodeTitle, nodeIcon := ic ie.nodeType,
            data := ie.interruptData, eventType := ie.eventType,
            schemaNodeID := ie.nodeKey }) ∧
      (∀ t : ToolInterruptEvent, ie.eventType = interruptEventLLMType →
        ie.toolInterruptEvent = some t →
        (getProcessData ic wf).nodeEvents.get? k = some
          { id := goItoaInt ie.id, nodeID := t.nodeKey,
            nodeTitle := t.nodeTitle, nodeIcon := ic t.nodeType,
            data := t.interruptData, eventType := t.eventType,
            schemaNodeID := t.nodeKey })) := by
  have hstatus : (getProcessData ic wf).executeStatus = WorkflowStatus.running := by
    simp only [getProcessData, hint, if_pos]
  have hevents : (getProcessData ic wf).nodeEvents =
      wf.interruptEvents.map (nodeEventOfInterrupt ic) := rfl
  refine ⟨hstatus, ?_, ?_⟩
  · rw [hevents, List.length_map]
  · intro k ie hget
    constructor
    · intro hne
      rw [hevents, List.get?_map, hget, Option.map_some',
        nodeEventOfInterrupt_nonLLM ic ie hne]
    · intro t heq ht
      rw [hevents, List.get?_map, hget, Option.map_some',
        nodeEventOfInterrupt_llm ic ie t heq ht]

/-- A pending non-LLM interrupt event. -/
def exPlainInterrupt : InterruptEventRec :=
  { id := 1, nodeKey := "k1", nodeType := NodeType.other 3, nodeTitle := "T1",
    nodeIcon := "i1", eventType := 6, interruptData := "d1",
    toolInterruptEvent := none }

/-- The embedded tool event of an LLM interrupt. -/
def exToolEvent : ToolInterruptEvent :=
  { nodeKey := "k2", nodeType := NodeType.llm, nodeTitle := "T2",
    nodeIcon := "i2", eventType := 2, interruptData := "d2" }

/-- A pending LLM tool interrupt event. -/
def exLLMInterrupt : InterruptEventRec :=
  { id := 2, nodeKey := "kx", nodeType := NodeType.other 9, nodeTitle := "Tx",
    nodeIcon := "ix", eventType := interruptEventLLMType,
    interruptData := "dx", toolInterruptEvent := some exToolEvent }

/-- An interrupted execution with the two pending interrupt events. -/
def exWfInterrupted : WorkflowExecutionRec :=
  { id := 9, workflowID := 7, spaceID := 3,
    status := WorkflowStatus.interrupted, durationMs := 2000,
    failReason := none, logID := "lg", tokenInfo := none, appID := none,
    nodeCount := 2, nodeExecutions := [],
    interruptEvents := [exPlainInterrupt, exLLMInterrupt] }

theorem getProcess_interrupted_reports_running_and_events_witness :
    (getProcessData exIconCache exWfInterrupted).executeStatus =
      WorkflowStatus.running ∧
    (getProcessData exIconCache exWfInterrupted).nodeEvents.get? 0 = some
      { id := goItoaInt 1, nodeID := "k1", nodeTitle := "T1",
        nodeIcon := exIconCache (NodeType.other 3), data := "d1",
        eventType := 6, schemaNodeID := "k1" } ∧
    (getProcessData exIconCache exWfInterrupted).nodeEvents.get? 1 = some
      { id := goItoaInt 2, nodeID := "k2", nodeTitle := "T2",
        nodeIcon := exIconCache NodeType.llm, data := "d2",
        eventType := 2, schemaNodeID := "k2" } := by
  refine ⟨(getProcess_interrupted_reports_running_and_events exIconCache
    exWfInterrupted rfl).1, ?_, ?_⟩
  · exact ((getProcess_interrupted_reports_running_and_events exIconCache
      exWfInterrupted rfl).2.2 0 exPlainInterrupt rfl).1 (by decide)
  · exact ((getProcess_interrupted_reports_running_and_events exIconCache
      exWfInterrupted rfl).2.2 1 exLLMInterrupt rfl).2 exToolEvent rfl rfl

/-! ## Claim theorems: interrupt key round-trip (C6) -/

theorem natDigitChar_isDigit (d : Nat) (h : d < 10) :
    (natDigitChar d).isDigit = true := by
  interval_cases d <;> decide

theorem natDigitChar_val (d : Nat) (h : d < 10) :
    charDigitVal (natDigitChar d) = d := by
  interval_cases d <;> decide

theorem isDigit_ne_slash {c : Char} (h : c.isDigit = true) : c ≠ '/' := by
  intro he
  rw [he] at h
  exact absurd h (by decide)

theorem isDigit_ne_minus {c : Char} (h : c.isDigit = true) : c ≠ '-' := by
  intro he
  rw [he] at h
  exact absurd h (by decide)

theorem isDigit_ne_plus {c : Char} (h : c.isDigit = true) : c ≠ '+' := by
  intro he
  rw [he] at h
  exact absurd h (by decide)

theorem natToDigits_zero : natToDigits 0 = [] := by
  rw [natToDigits]
  rfl

theorem natToDigits_of_ne (n : Nat) (h : n ≠ 0) :
    natToDigits n = natToDigits (n / 10) ++ [natDigitChar (n % 10)] := by
  conv_lhs => rw [natToDigits]
  rw [dif_neg h]

theorem natToDigits_ne_nil (n : Nat) (h : n ≠ 0) : natToDigits n ≠ [] := by
  rw [natToDigits_of_ne n h]
  simp

theorem natToDigits_all_digits (n : Nat) :
    ∀ c ∈ natToDigits n, c.isDigit = true := by
  induction n using Nat.strong_induction_on with
  | _ n ih =>
    by_cases h : n = 0
    · rw [h, natToDigits_zero]
      intro c hc
      exact absurd hc (List.not_mem_nil c)
    · rw [natToDigits_of_ne n h]
      intro c hc
      rcases List.mem_append.mp hc with hc2 | hc2
      · exact ih (n / 10)
          (Nat.div_lt_self (Nat.pos_of_ne_zero h) (by decide)) c hc2
      · rw [List.mem_singleton.mp hc2]
        exact natDigitChar_isDigit _ (Nat.mod_lt n (by decide))

theorem digitsValFrom_append (acc : Nat) (a b : List Char) :
    digitsValFrom acc (a ++ b) = digitsValFrom (digitsValFrom acc a) b := by
  simp [digitsValFrom, List.foldl_append]

theorem digitsValFrom_natToDigits (n : Nat) :
    ∀ acc, digitsValFrom acc (natToDigits n) =
      acc * 10 ^ (natToDigits n).length + n := by
  induction n using Nat.strong_induction_on with
  | _ n ih =>
    intro acc
    by_cases h : n = 0
    · rw [h, natToDigits_zero]
      simp [digitsValFrom]
    · rw [natToDigits_of_ne n h, digitsValFrom_append,
        ih (n / 10) (Nat.div_lt_self (Nat.pos_of_ne_zero h) (by decide)) acc]
      simp only [digitsValFrom, List.foldl_cons, List.foldl_nil]
      rw [natDigitChar_val _ (Nat.mod_lt n (by decide))]
      rw [List.length_append, List.length_singleton, pow_succ, ← mul_assoc]
      generalize acc * 10 ^ (natToDigits (n / 10)).length = A
      omega

theorem goItoaNat_data_digits (n : Nat) :
    ∀ c ∈ (goItoaNat n).data, c.isDigit = true := by
  rw [goItoaNat]
  by_cases h : n = 0
  · rw [if_pos h]
    intro c hc
    rw [List.mem_singleton.mp hc]
    decide
  · rw [if_neg h]
    exact natToDigits_all_digits n

theorem goItoaNat_data_ne_nil (n : Nat) : (goItoaNat n).data ≠ [] := by
  rw [goItoaNat]
  by_cases h : n = 0
  · rw [if_pos h]
    simp
  · rw [if_neg h]
    exact natToDigits_ne_nil n h

theorem digitsValFrom_goItoaNat (n : Nat) :
    digitsValFrom 0 (goItoaNat n).data = n := by
  rw [goItoaNat]
  by_cases h : n = 0
  · rw [if_pos h, h]
    rfl
  · rw [if_neg h]
    rw [show (String.mk (natToDigits n)).data = natToDigits n from rfl]
    rw [digitsValFrom_natToDigits n 0]
    simp

theorem goItoaInt_data_no_slash (v : Int) :
    ∀ c ∈ (goItoaInt v).data, c ≠ '/' := by
  rw [goItoaInt]
  by_cases h : v < 0
  · rw [if_pos h]
    intro c hc
    rw [show ("-" ++ goItoaNat v.natAbs).data =
      '-' :: (goItoaNat v.natAbs).data from rfl] at hc
    rcases List.mem_cons.mp hc with rfl | hc2
    · decide
    · exact isDigit_ne_slash (goItoaNat_data_digits _ c hc2)
  · rw [if_neg h]
    intro c hc
    exact isDigit_ne_slash (goItoaNat_data_digits _ c hc)

theorem parseGoIntChars_digits (l : List Char) (hne : l ≠ [])
    (hdig : ∀ c ∈ l, c.isDigit = true)
    (hrange : ((digitsValFrom 0 l : Nat) : Int) ≤ 2 ^ 63 - 1) :
    parseGoIntChars l = some ((digitsValFrom 0 l : Nat) : Int) := by
  cases l with
  | nil => exact absurd rfl hne
  | cons c rest =>
    have hc := hdig c (List.mem_cons_self _ _)
    have hcm : ¬ c = '-' := isDigit_ne_minus hc
    have hcp : ¬ c = '+' := isDigit_ne_plus hc
    have hall : (c :: rest).all (fun c2 => c2.isDigit) = true :=
      List.all_eq_true.mpr (fun x hx => hdig x hx)
    have hnonneg : -(2 ^ 63 : Int) ≤ ((digitsValFrom 0 (c :: rest) : Nat) : Int) :=
      le_trans (by norm_num) (Int.natCast_nonneg _)
    simp only [parseGoIntChars, if_neg hcm, if_neg hcp, List.isEmpty_cons,
      Bool.false_eq_true, if_false, hall, if_true]
    rw [if_pos ⟨hnonneg, hrange⟩]

theorem parseGoIntChars_neg_digits (l : List Char) (hne : l ≠ [])
    (hdig : ∀ c ∈ l, c.isDigit = true)
    (hrange : -(2 ^ 63 : Int) ≤ -((digitsValFrom 0 l : Nat) : Int)) :
    parseGoIntChars ('-' :: l) = some (-((digitsValFrom 0 l : Nat) : Int)) := by
  have hall : l.all (fun c2 => c2.isDigit) = true :=
    List.all_eq_true.mpr (fun x hx => hdig x hx)
  have hle : l.isEmpty = false := by
    cases l with
    | nil => exact absurd rfl hne
    | cons a b => rfl
  have hhi : -((digitsValFrom 0 l : Nat) : Int) ≤ 2 ^ 63 - 1 :=
    le_trans (neg_nonpos_of_nonneg (Int.natCast_nonneg _)) (by norm_num)
  simp only [parseGoIntChars, if_pos rfl, hle, Bool.false_eq_true, if_false,
    hall, if_true]
  rw [if_pos ⟨hrange, hhi⟩]

theorem parseGoIntChars_goItoaNat (n : Nat) (h : (n : Int) ≤ 2 ^ 63 - 1) :
    parseGoIntChars (goItoaNat n).data = some (n : Int) := by
  have hval : digitsValFrom 0 (goItoaNat n).data = n := digitsValFrom_goItoaNat n
  rw [parseGoIntChars_digits (goItoaNat n).data (goItoaNat_data_ne_nil n)
    (goItoaNat_data_digits n) (by rw [hval]; exact h), hval]

theorem parseGoIntChars_goItoaInt (v : Int) (hlo : -(2 ^ 63) ≤ v)
    (hhi : v ≤ 2 ^ 63 - 1) :
    parseGoIntChars (goItoaInt v).data = some v := by
  rw [goItoaInt]
  by_cases hneg : v < 0
  · rw [if_pos hneg]
    have habs : ((v.natAbs : Nat) : Int) = -v :=
      Int.ofNat_natAbs_of_nonpos (le_of_lt hneg)
    have hval : digitsValFrom 0 (goItoaNat v.natAbs).data = v.natAbs :=
      digitsValFrom_goItoaNat v.natAbs
    rw [show ("-" ++ goItoaNat v.natAbs).data =
      '-' :: (goItoaNat v.natAbs).data from rfl]
    rw [parseGoIntChars_neg_digits (goItoaNat v.natAbs).data
      (goItoaNat_data_ne_nil _) (goItoaNat_data_digits _)
      (by rw [hval, habs, neg_neg]; exact hlo)]
    rw [hval, habs, neg_neg]
  · rw [if_neg hneg]
    have habs : ((v.natAbs : Nat) : Int) = v :=
      Int.natAbs_of_nonneg (le_of_not_lt hneg)
    rw [parseGoIntChars_goItoaNat v.natAbs (by rw [habs]; exact hhi), habs]

theorem splitSlash_no_slash (l : List Char) (h : ∀ c ∈ l, c ≠ '/') :
    splitSlash l = [l] := by
  induction l with
  | nil => rfl
  | cons c rest ih =>
    rw [splitSlash, if_neg (h c (List.mem_cons_self _ _)),
      ih (fun x hx => h x (List.mem_cons_of_mem _ hx))]

theorem splitSlash_append (a b : List Char) (ha : ∀ c ∈ a, c ≠ '/') :
    splitSlash (a ++ '/' :: b) = a :: splitSlash b := by
  induction a with
  | nil =>
    rw [List.nil_append, splitSlash, if_pos rfl]
  | cons c rest ih =>
    rw [List.cons_append, splitSlash,
      if_neg (ha c (List.mem_cons_self _ _)),
      ih (fun x hx => ha x (List.mem_cons_of_mem _ hx))]

theorem splitSlash_two (a b : List Char) (ha : ∀ c ∈ a, c ≠ '/')
    (hb : ∀ c ∈ b, c ≠ '/') : splitSlash (a ++ '/' :: b) = [a, b] := by
  rw [splitSlash_append a b ha, splitSlash_no_slash b hb]

theorem interruptEventKey_data (e i : Int) :
    (interruptEventKey e i).data =
      (goItoaInt e).data ++ '/' :: (goItoaInt i).data := by
  rw [interruptEventKey, String.data_append, String.data_append,
    List.append_assoc]
  rfl

/-- Claim C6: (a) the Interrupt event emitted for an interrupted state
message carries exactly the correlation key "{executionID}/{eventID}";
(b) OpenAPIStreamResume's parser maps that key back to the same
(executionID, eventID) pair for every int64 pair — a round-trip; (c) a key
that does not split into exactly two '/'-separated segments is rejected;
(d) a key whose segments are not parseable int64 literals is rejected. -/
theorem interrupt_key_roundtrip :
    (∀ (wid : Int) (s : ConvState) (sm : StateMessageRec)
        (ie : InterruptEventRec) (sp : Int),
      (s.executeID > 0 → sm.executeID = s.executeID) →
      sm.status = WorkflowStatus.interrupted →
      ∃ r, (convStep wid s ⟨sp, .state sm (some ie)⟩).2 = .emit r ∧
        ∃ p, r.interruptData = some p ∧
          p.eventID = interruptEventKey s.executeID ie.id) ∧
    (∀ e i : Int, -(2 ^ 63) ≤ e → e ≤ 2 ^ 63 - 1 →
      -(2 ^ 63) ≤ i → i ≤ 2 ^ 63 - 1 →
      parseStreamResumeEventID (interruptEventKey e i) = .ok (e, i)) ∧
    (∀ s : String, (splitSlash s.data).length ≠ 2 →
      ∃ m, parseStreamResumeEventID s = .error m) ∧
    (∀ (s : String) (a b : List Char), s.data = a ++ '/' :: b →
      (∀ c ∈ a, c ≠ '/') → (∀ c ∈ b, c ≠ '/') →
      (parseGoIntChars a = none ∨ parseGoIntChars b = none) →
      ∃ m, parseStreamResumeEventID s = .error m) := by
  refine ⟨?_, ?_, ?_, ?_⟩
  · intro wid s sm ie sp himp hst
    have h2 : ¬ (s.executeID > 0 ∧ s.executeID ≠ sm.executeID) := by
      rintro ⟨hgt, hne⟩
      exact hne (himp hgt).symm
    cases htool : ie.toolInterruptEvent with
    | none =>
      have hstep : (convStep wid s ⟨sp, .state sm (some ie)⟩).2 = .emit
          { baseResp (goItoaNat s.messageID) "Interrupt" with
              debugUrl := some (debugURL wid s.spaceID s.executeID),
              interruptData := some
                { eventID := interruptEventKey s.executeID ie.id,
                  interruptType := ie.eventType,
                  inData := ie.interruptData } } := by
        simp only [convStep, if_neg h2, hst, htool]
      exact ⟨_, hstep, _, rfl, rfl⟩
    | some t =>
      have hstep : (convStep wid s ⟨sp, .state sm (some ie)⟩).2 = .emit
          { baseResp (goItoaNat s.messageID) "Interrupt" with
              debugUrl := some (debugURL wid s.spaceID s.executeID),
              interruptData := some
                { eventID := interruptEventKey s.executeID ie.id,
                  interruptType := t.eventType,
                  inData := t.interruptData } } := by
        simp only [convStep, if_neg h2, hst, htool]
      exact ⟨_, hstep, _, rfl, rfl⟩
  · intro e i helo hehi hilo hihi
    rw [parseStreamResumeEventID, interruptEventKey_data,
      splitSlash_two _ _ (goItoaInt_data_no_slash e) (goItoaInt_data_no_slash i)]
    simp only [parseGoIntChars_goItoaInt e helo hehi,
      parseGoIntChars_goItoaInt i hilo hihi]
  · intro s hlen
    rw [parseStreamResumeEventID]
    rcases hsp : splitSlash s.data with _ | ⟨a, _ | ⟨b, _ | ⟨c, rest⟩⟩⟩
    · exact ⟨_, rfl⟩
    · exact ⟨_, rfl⟩
    · rw [hsp] at hlen
      exact absurd rfl hlen
    · exact ⟨_, rfl⟩
  · intro s a b hdata ha hb hor
    rcases hor with hnone | hnone
    · refine ⟨"failed to parse executeID from eventID segment " ++
        String.mk a, ?_⟩
      rw [parseStreamResumeEventID, hdata, splitSlash_two a b ha hb]
      simp only [hnone]
    · cases hpa : parseGoIntChars a with
      | none =>
        refine ⟨"failed to parse executeID from eventID segment " ++
          String.mk a, ?_⟩
        rw [parseStreamResumeEventID, hdata, splitSlash_two a b ha hb]
        simp only [hpa]
      | some e =>
        refine ⟨"failed to parse eventID from eventID segment " ++
          String.mk b, ?_⟩
        rw [parseStreamResumeEventID, hdata, splitSlash_two a b ha hb]
        simp only [hpa, hnone]

theorem interrupt_key_roundtrip_witness :
    (∃ r, (convStep 7 exConvRoot
        ⟨2, .state { executeID := 5, status := WorkflowStatus.interrupted,
                     lastError := none } (some exPlainInterrupt)⟩).2 =
        .emit r ∧
      ∃ p, r.interruptData = some p ∧ p.eventID = interruptEventKey 5 1) ∧
    (parseStreamResumeEventID (interruptEventKey 42 1) = .ok (42, 1)) ∧
    (∃ m, parseStreamResumeEventID "42" = .error m) ∧
    (∃ m, parseStreamResumeEventID "x/1" = .error m) := by
  refine ⟨?_, ?_, ?_, ?_⟩
  · exact interrupt_key_roundtrip.1 7 exConvRoot _ exPlainInterrupt 2
      (fun _ => rfl) rfl
  · exact interrupt_key_roundtrip.2.1 42 1 (by norm_num) (by norm_num)
      (by norm_num) (by norm_num)
  · exact interrupt_key_roundtrip.2.2.1 "42" (by decide)
  · exact interrupt_key_roundtrip.2.2.2 "x/1" ['x'] ['1'] rfl
      (by decide) (by decide) (Or.inl (by decide))

end CozeWf

